import Mathlib

/-!
Formal model of the CAD offset tool (`src/cad/views.py`).

The Python module is shallowly embedded in Lean.  Text is modelled as
`List Char` (Python `str`), byte buffers as `List Nat` (each entry one
byte), and Python `float` values as exact rationals `ℚ` on the parsing
and emission side and as real numbers `ℝ` on the vector-math side
(where a square root is taken).  Python exceptions are modelled by the
`PyError` type: `CADParseError` carries its message, and the remaining
constructors stand for the builtin exception classes that the module
can raise or catch (`json.JSONDecodeError`, `KeyError`, `TypeError`,
`ValueError`).  A Python function that can raise is modelled in the
`Except PyError` monad.
-/

namespace CadOffset

/-- Text is modelled as a list of characters, mirroring Python `str`. -/
abbrev Text := List Char

/-- Characters for which Python `str.isspace()` holds; this is the
whitespace class used by `str.strip()` and no-argument `str.split()`. -/
def isPySpace (c : Char) : Bool :=
  let n := c.toNat
  (9 ≤ n && n ≤ 13) || (28 ≤ n && n ≤ 32) || n == 0x85 || n == 0xA0 ||
    n == 0x1680 || (0x2000 ≤ n && n ≤ 0x200A) || n == 0x2028 || n == 0x2029 ||
    n == 0x202F || n == 0x205F || n == 0x3000

/-- Line boundary characters recognised by Python `str.splitlines()`
(besides the two-character boundary `"\r\n"`). -/
def isLineBreak (c : Char) : Bool :=
  let n := c.toNat
  n == 10 || n == 11 || n == 12 || n == 13 || n == 28 || n == 29 || n == 30 ||
    n == 0x85 || n == 0x2028 || n == 0x2029

/-- Python `str.strip()` with no argument: drop leading and trailing
whitespace. -/
def strip (s : Text) : Text :=
  ((s.dropWhile isPySpace).reverse.dropWhile isPySpace).reverse

/-- Worker for `splitlines`; `acc` holds the current line reversed.
A `"\r\n"` pair counts as a single boundary. -/
def splitlinesAux : Text → Text → List Text
  | [], acc => if acc = [] then [] else [acc.reverse]
  | '\r' :: '\n' :: t, acc => acc.reverse :: splitlinesAux t []
  | c :: t, acc =>
      if isLineBreak c then acc.reverse :: splitlinesAux t []
      else splitlinesAux t (c :: acc)

/-- Python `str.splitlines()`. -/
def splitlines (s : Text) : List Text := splitlinesAux s []

/-- Worker for `splitWs`; `acc` holds the current token reversed. -/
def splitWsAux : Text → Text → List Text
  | [], acc => if acc = [] then [] else [acc.reverse]
  | c :: t, acc =>
      if isPySpace c then
        if acc = [] then splitWsAux t [] else acc.reverse :: splitWsAux t []
      else splitWsAux t (c :: acc)

/-- Python `str.split()` with no argument: split on whitespace runs,
producing no empty tokens. -/
def splitWs (s : Text) : List Text := splitWsAux s []

/-- The decimal digit character for `n < 10`. -/
def digitChar (n : Nat) : Char := Char.ofNat (48 + n)

/-- Is `c` one of the characters `'0'`..`'9'`. -/
def isDigitCh (c : Char) : Bool := 48 ≤ c.toNat && c.toNat ≤ 57

/-- Numeric value of a digit character. -/
def digitVal (c : Char) : Nat := c.toNat - 48

/-- Decimal digits of `n`, least significant first; the first argument
is fuel bounding the digit count, so that the recursion is structural
(any fuel of at least `n` is enough). -/
def natToCharsRev : Nat → Nat → List Char
  | 0, _ => []
  | fuel + 1, n =>
      if n = 0 then [] else digitChar (n % 10) :: natToCharsRev fuel (n / 10)

/-- Decimal rendering of a natural number, as Python `str(n)` writes it. -/
def natToChars (n : Nat) : List Char :=
  if n = 0 then ['0'] else (natToCharsRev n n).reverse

/-- Value of a digit string read most significant first. -/
def digitsToNat (s : List Char) : Nat :=
  s.foldl (fun a c => a * 10 + digitVal c) 0

/-- Round a rational to the nearest integer, ties to the even integer.
This is the rounding IEEE-754 (and hence Python float formatting)
applies. -/
def roundHalfEven (x : ℚ) : ℤ :=
  let f := ⌊x⌋
  let r := x - (f : ℚ)
  if r < 1/2 then f
  else if 1/2 < r then f + 1
  else if f % 2 = 0 then f else f + 1

/-- Value of `q` rounded to six decimal places (round half to even),
the value a reader recovers from Python `format(q, ".6f")`. -/
def round6 (q : ℚ) : ℚ := (roundHalfEven (q * 1000000) : ℚ) / 1000000

/-- Pad a digit string on the left with zeros to length six. -/
def padZeros6 (s : List Char) : List Char :=
  List.replicate (6 - s.length) '0' ++ s

/-- Python `format(value, ".6f")` (the source's `format_float` helper):
fixed-point rendering with exactly six digits after the decimal point,
rounding half to even, with a leading minus sign for negative values. -/
def formatFloat6 (q : ℚ) : Text :=
  let n : ℤ := roundHalfEven (q * 1000000)
  let N : Nat := n.natAbs
  (if q < 0 then ['-'] else []) ++
    natToChars (N / 1000000) ++ '.' :: padZeros6 (natToChars (N % 1000000))

/-- Exponent suffix of a Python float literal: empty, or `e`/`E`
followed by an optionally signed digit string with nothing after it. -/
def parseExpPart : Text → Option ℤ
  | [] => some 0
  | c :: t =>
      if c = 'e' ∨ c = 'E' then
        match t with
        | '+' :: d =>
            if d ≠ [] ∧ d.all isDigitCh then some (digitsToNat d) else none
        | '-' :: d =>
            if d ≠ [] ∧ d.all isDigitCh then some (-(digitsToNat d : ℤ)) else none
        | d => if d ≠ [] ∧ d.all isDigitCh then some (digitsToNat d) else none
      else none

/-- Ten to an integer power, as a rational. -/
def qpow10 (e : ℤ) : ℚ := (10 : ℚ) ^ e

/-- Unsigned part of a Python float literal: `digits`, `digits.digits`,
`digits.`, or `.digits`, followed by an optional exponent. -/
def parseUnsignedFloat (s : Text) : Option ℚ :=
  let ip := s.takeWhile isDigitCh
  let r1 := s.dropWhile isDigitCh
  match r1 with
  | '.' :: r2 =>
      let fp := r2.takeWhile isDigitCh
      let r3 := r2.dropWhile isDigitCh
      if ip = [] ∧ fp = [] then none
      else
        (parseExpPart r3).map fun e =>
          ((digitsToNat ip : ℚ) + (digitsToNat fp : ℚ) / 10 ^ fp.length) * qpow10 e
  | _ =>
      if ip = [] then none
      else (parseExpPart r1).map fun e => (digitsToNat ip : ℚ) * qpow10 e

/-- Python `float(str)` on finite decimal literals: surrounding
whitespace is stripped, an optional sign precedes the unsigned literal.
The special forms `inf`/`nan`/underscored literals are not modelled;
the repository never feeds them to `float`.  Returns `none` where
Python raises `ValueError`. -/
def parseFloat? (s : Text) : Option ℚ :=
  match strip s with
  | '+' :: t => parseUnsignedFloat t
  | '-' :: t => (parseUnsignedFloat t).map Neg.neg
  | t => parseUnsignedFloat t

/-- Exceptions the Python module raises or catches.  `cadParse` is the
module's own `CADParseError` with its message; the other constructors
are the builtin exception classes involved. -/
inductive PyError where
  | cadParse (msg : String)
  | jsonDecode
  | keyError
  | typeError
  | valueError
  deriving DecidableEq

/-- The source's `PointData` dataclass: a point and its surface normal.
The numeric type is a parameter because parsing is modelled over exact
rationals while the offset arithmetic is modelled over the reals. -/
structure PointData (α : Type) where
  position : α × α × α
  normal : α × α × α
  deriving DecidableEq

/-- JSON values as `json.loads` produces them (numbers idealised as
exact rationals). -/
inductive Json where
  | null
  | jbool (b : Bool)
  | jnum (q : ℚ)
  | jstr (s : Text)
  | jarr (elems : List Json)
  | jobj (fields : List (Text × Json))

/-- Whitespace skipped between JSON tokens. -/
def skipWsJ (s : Text) : Text :=
  s.dropWhile fun c => c = ' ' ∨ c = '\t' ∨ c = '\n' ∨ c = '\r'

/-- Four hexadecimal digits of a `\uXXXX` escape. -/
def hexVal? (c : Char) : Option Nat :=
  if 48 ≤ c.toNat ∧ c.toNat ≤ 57 then some (c.toNat - 48)
  else if 97 ≤ c.toNat ∧ c.toNat ≤ 102 then some (c.toNat - 87)
  else if 65 ≤ c.toNat ∧ c.toNat ≤ 70 then some (c.toNat - 55)
  else none

/-- Body of a JSON string literal (the opening quote already consumed);
`acc` holds the decoded characters reversed. -/
def parseJStrAux : Text → Text → Option (Text × Text)
  | [], _ => none
  | '"' :: t, acc => some (acc.reverse, t)
  | '\\' :: e :: t, acc =>
      match e, t with
      | '"', t => parseJStrAux t ('"' :: acc)
      | '\\', t => parseJStrAux t ('\\' :: acc)
      | '/', t => parseJStrAux t ('/' :: acc)
      | 'b', t => parseJStrAux t ('\x08' :: acc)
      | 'f', t => parseJStrAux t ('\x0c' :: acc)
      | 'n', t => parseJStrAux t ('\n' :: acc)
      | 'r', t => parseJStrAux t ('\r' :: acc)
      | 't', t => parseJStrAux t ('\t' :: acc)
      | 'u', h1 :: h2 :: h3 :: h4 :: t =>
          match hexVal? h1, hexVal? h2, hexVal? h3, hexVal? h4 with
          | some a, some b, some c, some d =>
              parseJStrAux t (Char.ofNat (((a * 16 + b) * 16 + c) * 16 + d) :: acc)
          | _, _, _, _ => none
      | _, _ => none
  | c :: t, acc =>
      if c.toNat < 32 then none else parseJStrAux t (c :: acc)

/-- Exponent digits of a JSON number with their sign applied to the
value `v`; fails when no digit follows. -/
def parseJNumExpDigits (v : ℚ) (esgn : ℤ) (d0 : Text) : Option (ℚ × Text) :=
  let ed := d0.takeWhile isDigitCh
  if ed = [] then none
  else some (v * qpow10 (esgn * digitsToNat ed), d0.dropWhile isDigitCh)

/-- Optional exponent suffix of a JSON number whose mantissa value is
`v`. -/
def parseJNumExp (v : ℚ) (r2 : Text) : Option (ℚ × Text) :=
  match r2 with
  | 'e' :: rest | 'E' :: rest =>
      (match rest with
       | '+' :: d => parseJNumExpDigits v 1 d
       | '-' :: d => parseJNumExpDigits v (-1) d
       | d => parseJNumExpDigits v 1 d)
  | _ => some (v, r2)

/-- Unsigned JSON number: an integer part with no leading zero, an
optional fraction of at least one digit, an optional exponent. -/
def parseJNumCore (s1 : Text) : Option (ℚ × Text) :=
  let ip := s1.takeWhile isDigitCh
  let r1 := s1.dropWhile isDigitCh
  if ip.length = 1 ∨ (1 < ip.length ∧ ip.head? ≠ some '0') then
    match r1 with
    | '.' :: r =>
        let fp := r.takeWhile isDigitCh
        if fp = [] then none
        else
          parseJNumExp ((digitsToNat ip : ℚ) + (digitsToNat fp : ℚ) / 10 ^ fp.length)
            (r.dropWhile isDigitCh)
    | r1x => parseJNumExp (digitsToNat ip : ℚ) r1x
  else none

/-- JSON number grammar: an optional minus sign before the unsigned
number.  Returns the value and the unconsumed text. -/
def parseJNum? (s : Text) : Option (ℚ × Text) :=
  match s with
  | '-' :: t => (parseJNumCore t).map fun p => (-p.1, p.2)
  | t => parseJNumCore t

mutual

/-- One JSON value, by recursive descent; the fuel bounds the nesting
depth and always suffices when it exceeds the input length. -/
def parseJVal : Nat → Text → Option (Json × Text)
  | 0, _ => none
  | fuel + 1, s =>
      match skipWsJ s with
      | 'n' :: 'u' :: 'l' :: 'l' :: t => some (.null, t)
      | 't' :: 'r' :: 'u' :: 'e' :: t => some (.jbool true, t)
      | 'f' :: 'a' :: 'l' :: 's' :: 'e' :: t => some (.jbool false, t)
      | '"' :: t => (parseJStrAux t []).map fun (str, rest) => (.jstr str, rest)
      | '\x5b' :: t =>
          (match skipWsJ t with
           | '\x5d' :: t2 => some (.jarr [], t2)
           | _ =>
             match parseJVal fuel t with
             | none => none
             | some (v, rest) => parseJArrItems fuel rest [v])
      | '\x7b' :: t =>
          (match skipWsJ t with
           | '\x7d' :: t2 => some (.jobj [], t2)
           | _ => parseJObjItems fuel t [] true)
      | t =>
          (parseJNum? t).map fun (q, rest) => (.jnum q, rest)

/-- Items of a JSON array after the first: `, value` repeated until the
closing bracket. -/
def parseJArrItems : Nat → Text → List Json → Option (Json × Text)
  | 0, _, _ => none
  | fuel + 1, s, acc =>
      match skipWsJ s with
      | '\x5d' :: t => some (.jarr acc.reverse, t)
      | ',' :: t =>
          (match parseJVal fuel t with
           | none => none
           | some (v, rest) => parseJArrItems fuel rest (v :: acc))
      | _ => none

/-- Members of a JSON object: `"key": value` pairs separated by commas
until the closing brace; `first` is true before the first pair. -/
def parseJObjItems : Nat → Text → List (Text × Json) → Bool → Option (Json × Text)
  | 0, _, _, _ => none
  | fuel + 1, s, acc, first =>
      let s1 := skipWsJ s
      match s1 with
      | '\x7d' :: t => if first then some (.jobj acc.reverse, t) else none
      | _ =>
        let s2 := if first then s1 else
          match s1 with
          | ',' :: t => skipWsJ t
          | t => t
        let commaOk : Bool := first || (match s1 with | ',' :: _ => true | _ => false)
        if commaOk = false then none
        else
          match s2 with
          | '"' :: t =>
              (match parseJStrAux t [] with
               | none => none
               | some (key, rest) =>
                 match skipWsJ rest with
                 | ':' :: rest2 =>
                     (match parseJVal fuel rest2 with
                      | none => none
                      | some (v, rest3) =>
                        match skipWsJ rest3 with
                        | '\x7d' :: t4 => some (.jobj ((key, v) :: acc).reverse, t4)
                        | ',' :: _ =>
                            parseJObjItems fuel rest3 ((key, v) :: acc) false
                        | _ => none)
                 | _ => none)
          | _ => none

end

/-- Python `json.loads`: parse one JSON document and require only
whitespace after it; `none` is a `json.JSONDecodeError`. -/
def jsonLoads (s : Text) : Option Json :=
  match parseJVal (s.length + 1) s with
  | none => none
  | some (v, rest) => if skipWsJ rest = [] then some v else none

/-- Python `dict` lookup on the field list `json.loads` produced:
a duplicated key keeps its last value. -/
def lookupLast (fields : List (Text × Json)) (key : Text) : Option Json :=
  match fields.reverse.find? (fun p => p.1 = key) with
  | some p => some p.2
  | none => none

/-- Python iteration over a JSON value (the `for … in points` and
`for value in item[...]` loops): arrays yield their elements, strings
their characters, dicts their keys in first-insertion order; numbers,
booleans and `None` are not iterable and raise `TypeError`. -/
def jsonIter (v : Json) : Except PyError (List Json) :=
  match v with
  | .jarr xs => .ok xs
  | .jstr s => .ok (s.map fun c => .jstr [c])
  | .jobj fields => .ok ((fields.map (·.1)).dedup.map .jstr)
  | _ => .error .typeError

/-- Python subscript `item[key]` with a string key: dicts look the key
up (`KeyError` when absent); every other value raises `TypeError`. -/
def jsonGetItem (item : Json) (key : Text) : Except PyError Json :=
  match item with
  | .jobj fields =>
      match lookupLast fields key with
      | some v => .ok v
      | none => .error .keyError
  | _ => .error .typeError

/-- Python `float(value)` applied to a JSON value: numbers and booleans
coerce, numeric strings parse, anything else raises `TypeError`
(`ValueError` for a non-numeric string). -/
def floatCoerce (v : Json) : Except PyError ℚ :=
  match v with
  | .jnum q => .ok q
  | .jbool b => .ok (if b then 1 else 0)
  | .jstr s => match parseFloat? s with
      | some q => .ok q
      | none => .error .valueError
  | _ => .error .typeError

/-- The body of the inner `try` of `_load_json_points`: evaluate
`tuple(float(value) for value in item[key])`. -/
def jsonFloatTuple (item : Json) (key : Text) : Except PyError (List ℚ) := do
  let raw ← jsonGetItem item key
  let elems ← jsonIter raw
  elems.mapM floatCoerce

/-- One iteration of the `_load_json_points` loop, at index `idx`:
the inner `try` catches `KeyError`/`TypeError`/`ValueError` and
re-raises `CADParseError`; the arity check then rejects tuples that are
not 3-dimensional. -/
def loadJsonPoint (idx : Nat) (item : Json) : Except PyError (PointData ℚ) :=
  match (do
      let p ← jsonFloatTuple item "position".data
      let n ← jsonFloatTuple item "normal".data
      pure (p, n) : Except PyError (List ℚ × List ℚ)) with
  | .error .keyError | .error .typeError | .error .valueError =>
      .error (.cadParse ("Invalid point definition at index " ++ toString idx ++ "."))
  | .error e => .error e
  | .ok (p, n) =>
      match p, n with
      | [px, py, pz], [nx, ny, nz] => .ok ⟨(px, py, pz), (nx, ny, nz)⟩
      | _, _ =>
          .error (.cadParse ("Point at index " ++ toString idx ++
            " must include 3D position and normal."))

/-- The enumerated loop of `_load_json_points`. -/
def loadJsonItems : Nat → List Json → Except PyError (List (PointData ℚ))
  | _, [] => .ok []
  | idx, item :: rest => do
      let pt ← loadJsonPoint idx item
      let tail ← loadJsonItems (idx + 1) rest
      pure (pt :: tail)

/-- The source's `_load_json_points` (forced by `list(...)`, so the
generator is modelled eagerly): `json.loads` the text, take the
`"points"` member when the document is an object, and convert every
item.  A syntactically invalid document is a `json.JSONDecodeError`;
an object without `"points"` raises `KeyError`; iterating a
non-iterable document raises `TypeError`. -/
def load_json_points (data : Text) : Except PyError (List (PointData ℚ)) :=
  match jsonLoads data with
  | none => .error .jsonDecode
  | some payload => do
      let points ← match payload with
        | .jobj fields =>
            (match lookupLast fields "points".data with
             | some v => .ok v
             | none => .error PyError.keyError)
        | v => .ok v
      let items ← jsonIter points
      loadJsonItems 0 items

/-- The line loop of `_load_csv_points`, carrying Python's 1-based
`enumerate` counter and the accumulated points. -/
def loadCsvLines : List Text → Nat → List (PointData ℚ) →
    Except PyError (List (PointData ℚ))
  | [], _, acc => .ok acc
  | line :: rest, lineNumber, acc =>
      let stripped := strip line
      if stripped = [] ∨ stripped.head? = some '#' then
        loadCsvLines rest (lineNumber + 1) acc
      else
        let rawValues := splitWs
          (stripped.map fun c => if c = ';' ∨ c = ',' then ' ' else c)
        if rawValues.length ≠ 6 then
          .error (.cadParse ("Each line must contain 6 numeric values: x y z nx ny nz. " ++
            "Problem found on line " ++ toString lineNumber ++ "."))
        else
          match rawValues.mapM parseFloat? with
          | none =>
              .error (.cadParse ("Non-numeric value on line " ++ toString lineNumber ++ "."))
          | some values =>
              match values with
              | [x, y, z, nx, ny, nz] =>
                  loadCsvLines rest (lineNumber + 1) (acc ++ [⟨(x, y, z), (nx, ny, nz)⟩])
              | _ => .error (.cadParse "unreachable")

/-- The source's `_load_csv_points`: line-oriented delimited-text
decoder.  Blank lines and `#` comments are skipped; every other line
must hold exactly six numeric tokens once `;` and `,` are turned into
spaces. -/
def load_csv_points (data : Text) : Except PyError (List (PointData ℚ)) :=
  loadCsvLines (splitlines data) 1 []

/-- The line loop of `_load_stl_points_text`: a state machine whose
state is the accumulated points plus the pending facet normal. -/
def loadStlTextLines : List Text → Nat → List (PointData ℚ) → Option (ℚ × ℚ × ℚ) →
    Except PyError (List (PointData ℚ))
  | [], _, pts, _ => .ok pts
  | line :: rest, lineNumber, pts, currentNormal =>
      let stripped := strip line
      if stripped = [] then loadStlTextLines rest (lineNumber + 1) pts currentNormal
      else
        let tokens := splitWs (stripped.map Char.toLower)
        if tokens.take 2 = ["facet".data, "normal".data] then
          let originalParts := splitWs stripped
          if originalParts.length ≠ 5 then
            .error (.cadParse ("Facet normal must include three numeric components. " ++
              "Problem found on line " ++ toString lineNumber ++ "."))
          else
            match (originalParts.drop 2).mapM parseFloat? with
            | none =>
                .error (.cadParse ("Invalid normal definition on line " ++
                  toString lineNumber ++ "."))
            | some values =>
                match values with
                | [nx, ny, nz] =>
                    loadStlTextLines rest (lineNumber + 1) pts (some (nx, ny, nz))
                | _ => .error (.cadParse "unreachable")
        else if tokens.head? = some "vertex".data then
          match currentNormal with
          | none =>
              .error (.cadParse ("Encountered vertex before a facet normal definition. " ++
                "Problem found on line " ++ toString lineNumber ++ "."))
          | some nrm =>
              let components := splitWs stripped
              if components.length ≠ 4 then
                .error (.cadParse ("Vertex definition must include three numeric coordinates. " ++
                  "Problem found on line " ++ toString lineNumber ++ "."))
              else
                match (components.drop 1).mapM parseFloat? with
                | none =>
                    .error (.cadParse ("Invalid vertex definition on line " ++
                      toString lineNumber ++ "."))
                | some values =>
                    match values with
                    | [x, y, z] =>
                        loadStlTextLines rest (lineNumber + 1)
                          (pts ++ [⟨(x, y, z), nrm⟩]) currentNormal
                    | _ => .error (.cadParse "unreachable")
        else if tokens.head? = some "endfacet".data then
          loadStlTextLines rest (lineNumber + 1) pts none
        else loadStlTextLines rest (lineNumber + 1) pts currentNormal

/-- The source's `_load_stl_points_text`: ASCII STL decoder.  Fails
when the file yields no vertex at all. -/
def load_stl_points_text (data : Text) : Except PyError (List (PointData ℚ)) :=
  match loadStlTextLines (splitlines data) 1 [] none with
  | .error e => .error e
  | .ok pts =>
      if pts = [] then
        .error (.cadParse "No vertices were found in the provided STL file.")
      else .ok pts

/-- Byte of a buffer at an index; the decoder only reads inside the
bounds its length checks establish, so the default is never observed. -/
def byteAt (data : List Nat) (i : Nat) : Nat := data.getD i 0

/-- Little-endian 32-bit read at offset `off`, as `struct.unpack_from`
with format `<I` performs it. -/
def le32 (data : List Nat) (off : Nat) : Nat :=
  byteAt data off + 256 * byteAt data (off + 1) +
    65536 * byteAt data (off + 2) + 16777216 * byteAt data (off + 3)

/-- Value of an IEEE-754 binary32 bit pattern, as an exact rational:
sign bit 31, 8 exponent bits, 23 mantissa bits, with subnormals for a
zero exponent.  The non-finite patterns (exponent 255, inf/NaN in
IEEE) are idealised by the same formula; no claim of the repository
depends on non-finite values. -/
def decodeF32 (bits : Nat) : ℚ :=
  let s : ℕ := bits / 2 ^ 31 % 2
  let e : ℕ := bits / 2 ^ 23 % 2 ^ 8
  let m : ℕ := bits % 2 ^ 23
  let sgn : ℚ := if s = 1 then -1 else 1
  if e = 0 then sgn * (m : ℚ) / 2 ^ 149
  else sgn * ((2 ^ 23 + m : ℕ) : ℚ) * (2 : ℚ) ^ e / 2 ^ 150

/-- One little-endian `float32` read at offset `off` (`struct` format
`<f`). -/
def f32At (data : List Nat) (off : Nat) : ℚ := decodeF32 (le32 data off)

/-- Three consecutive little-endian `float32` values starting at
`off` (`struct` format `<fff`). -/
def f32TripleAt (data : List Nat) (off : Nat) : ℚ × ℚ × ℚ :=
  (f32At data off, f32At data (off + 4), f32At data (off + 8))

/-- The record loop of `_load_stl_points_binary`: at offset `off`,
read `t` more 50-byte triangle records, each one normal followed by
three positions and a skipped 2-byte attribute count, emitting three
points that share the record's normal. -/
def stlBinaryRecords (data : List Nat) : Nat → Nat → List (PointData ℚ)
  | _, 0 => []
  | off, t + 1 =>
      let nrm := f32TripleAt data off
      ⟨f32TripleAt data (off + 12), nrm⟩ ::
        ⟨f32TripleAt data (off + 24), nrm⟩ ::
          ⟨f32TripleAt data (off + 36), nrm⟩ ::
            stlBinaryRecords data (off + 50) t

/-- The source's `_load_stl_points_binary`: 80-byte header, 32-bit
little-endian triangle count at offset 80, then the record loop. -/
def load_stl_points_binary (data : List Nat) : Except PyError (List (PointData ℚ)) :=
  if data.length < 84 then
    .error (.cadParse "Binary STL file is too small to contain any geometry.")
  else
    let triangleCount := le32 data 80
    let expectedSize := 84 + triangleCount * 50
    if data.length < expectedSize then
      .error (.cadParse "Binary STL file is truncated and cannot be parsed.")
    else
      let points := stlBinaryRecords data 84 triangleCount
      if points = [] then
        .error (.cadParse "Binary STL file contained no vertices.")
      else .ok points

/-- Strict UTF-8 decoding of a byte buffer, as `bytes.decode("utf-8")`
performs it: multi-byte sequences are validated, and overlong forms,
surrogate code points and values above `U+10FFFF` are rejected
(`none` models `UnicodeDecodeError`). -/
def decodeUtf8? : List Nat → Option (List Char)
  | [] => some []
  | b :: rest =>
      if b < 0x80 then
        (decodeUtf8? rest).map fun cs => Char.ofNat b :: cs
      else if 0xC2 ≤ b ∧ b ≤ 0xDF then
        match rest with
        | b1 :: rest1 =>
            if 0x80 ≤ b1 ∧ b1 ≤ 0xBF then
              (decodeUtf8? rest1).map fun cs =>
                Char.ofNat ((b - 0xC0) * 64 + (b1 - 0x80)) :: cs
            else none
        | _ => none
      else if 0xE0 ≤ b ∧ b ≤ 0xEF then
        match rest with
        | b1 :: b2 :: rest2 =>
            let lo1 := if b = 0xE0 then 0xA0 else 0x80
            let hi1 := if b = 0xED then 0x9F else 0xBF
            if (lo1 ≤ b1 ∧ b1 ≤ hi1) ∧ (0x80 ≤ b2 ∧ b2 ≤ 0xBF) then
              (decodeUtf8? rest2).map fun cs =>
                Char.ofNat ((b - 0xE0) * 4096 + (b1 - 0x80) * 64 + (b2 - 0x80)) :: cs
            else none
        | _ => none
      else if 0xF0 ≤ b ∧ b ≤ 0xF4 then
        match rest with
        | b1 :: b2 :: b3 :: rest3 =>
            let lo1 := if b = 0xF0 then 0x90 else 0x80
            let hi1 := if b = 0xF4 then 0x8F else 0xBF
            if (lo1 ≤ b1 ∧ b1 ≤ hi1) ∧ (0x80 ≤ b2 ∧ b2 ≤ 0xBF) ∧
                (0x80 ≤ b3 ∧ b3 ≤ 0xBF) then
              (decodeUtf8? rest3).map fun cs =>
                Char.ofNat ((b - 0xF0) * 262144 + (b1 - 0x80) * 4096 +
                  (b2 - 0x80) * 64 + (b3 - 0x80)) :: cs
            else none
        | _ => none
      else none

/-- The source's `parse_cad_points` autodetection chain over the raw
upload bytes.  An empty buffer and a whitespace-only text are
`CADParseError`s; on text, JSON is tried first (only a
`json.JSONDecodeError` falls through), then ASCII STL (any
`CADParseError` falls through), then delimited text (a `CADParseError`
is wrapped as the unsupported-format error); a non-UTF-8 buffer goes
straight to the binary STL decoder. -/
def parse_cad_points (raw_data : List Nat) : Except PyError (List (PointData ℚ)) :=
  if raw_data = [] then .error (.cadParse "Uploaded file is empty.")
  else
    match decodeUtf8? raw_data with
    | some textData =>
        let stripped := strip textData
        if stripped = [] then .error (.cadParse "Uploaded file is empty.")
        else
          match load_json_points stripped with
          | .ok pts => .ok pts
          | .error .jsonDecode =>
              (match load_stl_points_text stripped with
               | .ok pts => .ok pts
               | .error (.cadParse _) =>
                   (match load_csv_points stripped with
                    | .ok pts => .ok pts
                    | .error (.cadParse _) =>
                        .error (.cadParse
                          "Unsupported CAD file format. Provide JSON, CSV, or STL data.")
                    | .error e => .error e)
               | .error e => .error e)
          | .error e => .error e
    | none =>
        match load_stl_points_binary raw_data with
        | .ok pts => .ok pts
        | .error (.cadParse _) =>
            .error (.cadParse "Unsupported CAD file format. Provide JSON, CSV, or STL data.")
        | .error e => .error e

/-- ASCII bytes of an ASCII string, the encoding used to build the
concrete upload buffers appearing in the theorems below. -/
def asciiBytes (s : Text) : List Nat := s.map Char.toNat

/-- Magnitude of a normal vector: the source computes
`(nx**2 + ny**2 + nz**2) ** 0.5`, the square root of the sum of the
squares. -/
noncomputable def normalMagnitude (n : ℝ × ℝ × ℝ) : ℝ :=
  Real.sqrt (n.1 ^ 2 + n.2.1 ^ 2 + n.2.2 ^ 2)

/-- The source's `offset_points`: move every point along its
normalised normal by `offset`; a zero-magnitude normal (exact
comparison against `0`) raises `CADParseError` and aborts the whole
computation. -/
noncomputable def offset_points : List (PointData ℝ) → ℝ →
    Except PyError (List (ℝ × ℝ × ℝ))
  | [], _ => .ok []
  | point :: rest, offset =>
      let nx := point.normal.1
      let ny := point.normal.2.1
      let nz := point.normal.2.2
      let magnitude := Real.sqrt (nx ^ 2 + ny ^ 2 + nz ^ 2)
      if magnitude = 0 then .error (.cadParse "Normal vector cannot be zero.")
      else
        match offset_points rest offset with
        | .error e => .error e
        | .ok tail =>
            .ok ((point.position.1 + nx / magnitude * offset,
                  point.position.2.1 + ny / magnitude * offset,
                  point.position.2.2 + nz / magnitude * offset) :: tail)

/-- A parsed point, its exact rational coordinates read as reals — the
identification of Python floats with real numbers used by the
vector-math layer. -/
noncomputable def pointToReal (p : PointData ℚ) : PointData ℝ :=
  ⟨((p.position.1 : ℝ), (p.position.2.1 : ℝ), (p.position.2.2 : ℝ)),
   ((p.normal.1 : ℝ), (p.normal.2.1 : ℝ), (p.normal.2.2 : ℝ))⟩

/-- The source's `" ".join(format_float(c) for c in v)` over a
3-vector, for an arbitrary component formatter `fmt` (the source
always instantiates it with 6-decimal fixed-point formatting; the
formatter is a parameter here because the view formats both parsed
rationals and computed reals with it). -/
def fmtTriple {α : Type} (fmt : α → Text) (v : α × α × α) : Text :=
  fmt v.1 ++ ' ' :: fmt v.2.1 ++ ' ' :: fmt v.2.2

/-- The block of lines one loop iteration of `_generate_ascii_stl`
emits at `index`: the facet-normal line carries the normal of
`points[index]` (the head of `points` with `index` entries dropped),
then `outer loop`, one vertex line per entry of the slice
`vertex_positions[index : index + 3]`, `endloop` and `endfacet`. -/
def facetBlock {α : Type} (fmt : α → Text) (points : List (PointData α))
    (vps : List (α × α × α)) (index : Nat) : List Text :=
  match (points.drop index).head? with
  | none => []
  | some p =>
      ("  facet normal ".data ++ fmtTriple fmt p.normal)
        :: "    outer loop".data
        :: (((vps.drop index).take 3).map fun v => "      vertex ".data ++ fmtTriple fmt v)
        ++ ["    endloop".data, "  endfacet".data]

/-- The facet-emission loop of `_generate_ascii_stl`:
`for index in range(0, len(points), 3)` — the indices `3 * k` for
`k < ⌈len / 3⌉` — concatenating the block each iteration appends. -/
def facetLinesFrom {α : Type} (fmt : α → Text) (points : List (PointData α))
    (vps : List (α × α × α)) : List Text :=
  (List.range ((points.length + 2) / 3)).flatMap fun k => facetBlock fmt points vps (3 * k)

/-- Join lines with `"\n"`, Python `"\n".join(lines)`. -/
def joinNl (lines : List Text) : Text := List.intercalate ['\n'] lines

/-- The source's `_generate_ascii_stl`: `None` when an explicit
position list disagrees in length with the points, or when the points
cannot be grouped into whole triangles; otherwise the
`solid …`/`endsolid …` block. -/
def generate_ascii_stl {α : Type} (fmt : α → Text) (points : List (PointData α))
    (positions : Option (List (α × α × α))) (solid_name : Text) : Option Text :=
  let vertexPositions? : Option (List (α × α × α)) :=
    match positions with
    | none => some (points.map (·.position))
    | some ps => if ps.length ≠ points.length then none else some ps
  match vertexPositions? with
  | none => none
  | some vps =>
      if points.length % 3 ≠ 0 then none
      else
        some (joinNl (("solid ".data ++ solid_name)
          :: facetLinesFrom fmt points vps ++ [("endsolid ".data ++ solid_name)]))

/-- Consecutive point/position triples, for stating the facet loop in
closed form: the first point of every complete triple of `points`,
paired with the corresponding three vertex positions. -/
def triples {α : Type} : List (PointData α) → List (α × α × α) →
    List (PointData α × List (α × α × α))
  | p1 :: _ :: _ :: pr, v1 :: v2 :: v3 :: vr => (p1, [v1, v2, v3]) :: triples pr vr
  | _, _ => []

/-- The facet block of one triple, in closed form: the facet-normal
line carries the triple's first point's normal, and each of the three
positions yields one vertex line. -/
def facetText {α : Type} (fmt : α → Text) (pr : PointData α × List (α × α × α)) :
    List Text :=
  ("  facet normal ".data ++ fmtTriple fmt pr.1.normal)
    :: "    outer loop".data
    :: (pr.2.map fun v => "      vertex ".data ++ fmtTriple fmt v)
    ++ ["    endloop".data, "  endfacet".data]

/-- The success payload of `offset_view`: the response dictionary.
The keys `offset_points` and `source_points` are always written; the
two STL keys are written only when emission succeeded, hence the
`Option`. -/
structure OffsetPayload where
  offsetPointsOut : List (ℝ × ℝ × ℝ)
  sourcePointsOut : List (ℚ × ℚ × ℚ)
  sourceStl : Option Text
  offsetStl : Option Text

/-- A completed HTTP response of `offset_view`: an error body with
status 400, or the success payload. -/
inductive ViewResult where
  | badRequest (msg : String)
  | success (payload : OffsetPayload)

/-- The source's `offset_view` POST branch.  `fmtR` is the 6-decimal
formatter read at the real-number idealisation of Python floats; it is
a parameter because a real number has no computable decimal rendering,
and no property below depends on it.  A missing file or a non-numeric
offset is answered directly; `CADParseError` from parsing or
offsetting is caught and answered with status 400; any other exception
escapes the view (the `Except.error` results). -/
noncomputable def offset_view (fmtR : ℝ → Text) (file? : Option (List Nat))
    (offsetRaw : Text) : Except PyError ViewResult :=
  match file? with
  | none => .ok (.badRequest "Missing CAD file in \x27file\x27 field.")
  | some rawData =>
      match parseFloat? offsetRaw with
      | none => .ok (.badRequest "Offset must be a numeric value.")
      | some offsetValue =>
          match parse_cad_points rawData with
          | .error (.cadParse msg) => .ok (.badRequest msg)
          | .error e => .error e
          | .ok points =>
              match offset_points (points.map pointToReal) (offsetValue : ℝ) with
              | .error (.cadParse msg) => .ok (.badRequest msg)
              | .error e => .error e
              | .ok offsetPositions =>
                  let payload : OffsetPayload :=
                    { offsetPointsOut := offsetPositions
                      sourcePointsOut := points.map (·.position)
                      sourceStl := none
                      offsetStl := none }
                  match generate_ascii_stl formatFloat6 points none "source_mesh".data with
                  | none => .ok (.success payload)
                  | some sourceStl =>
                      match generate_ascii_stl fmtR (points.map pointToReal)
                          (some offsetPositions) "offset_mesh".data with
                      | none => .ok (.success { payload with sourceStl := some sourceStl })
                      | some offsetStl =>
                          .ok (.success { payload with
                            sourceStl := some sourceStl, offsetStl := some offsetStl })

/-- Equality of `Except` results is decidable when it is on both
sides, letting concrete runs of the decoders be checked by `decide`. -/
instance {ε α : Type} [DecidableEq ε] [DecidableEq α] : DecidableEq (Except ε α) :=
  fun x y =>
    match x, y with
    | .error a, .error b =>
        if h : a = b then isTrue (by rw [h])
        else isFalse (by intro hc; cases hc; exact h rfl)
    | .ok a, .ok b =>
        if h : a = b then isTrue (by rw [h])
        else isFalse (by intro hc; cases hc; exact h rfl)
    | .error _, .ok _ => isFalse (by intro hc; cases hc)
    | .ok _, .error _ => isFalse (by intro hc; cases hc)

/-- A concrete one-triangle binary STL buffer: an 80-byte zero header,
the little-endian triangle count 1, a normal `(0, 0, 1)` (float32
`1.0` is the bytes `00 00 80 3F`), the three unit-triangle positions,
and a zero attribute count — 134 bytes in total. -/
def binStlExample : List Nat :=
  List.replicate 80 0 ++ [1, 0, 0, 0] ++
    ([0, 0, 0, 0] ++ [0, 0, 0, 0] ++ [0, 0, 128, 63]) ++
    ([0, 0, 0, 0] ++ [0, 0, 0, 0] ++ [0, 0, 0, 0]) ++
    ([0, 0, 128, 63] ++ [0, 0, 0, 0] ++ [0, 0, 0, 0]) ++
    ([0, 0, 0, 0] ++ [0, 0, 128, 63] ++ [0, 0, 0, 0]) ++ [0, 0]

/-- Characters of formatted numbers: digits, the minus sign or the
decimal point. -/
def isNumChar (c : Char) : Prop := isDigitCh c = true ∨ c = '-' ∨ c = '.'

/-- A triangle whose first vertex coordinate `10⁻⁷` is below the
resolution of 6-decimal formatting — the round-trip counterexample. -/
def roundTripCounterexample : List (PointData ℚ) :=
  [⟨(1 / 10000000, 0, 0), (0, 0, 1)⟩, ⟨(1, 0, 0), (0, 0, 1)⟩, ⟨(0, 1, 0), (0, 0, 1)⟩]

/-- A 3-vector with every component rounded to six decimal places. -/
def round6Triple (v : ℚ × ℚ × ℚ) : ℚ × ℚ × ℚ :=
  (round6 v.1, round6 v.2.1, round6 v.2.2)

/-- A point with every component rounded to six decimal places — what
survives 6-decimal fixed-point formatting. -/
def round6Point (p : PointData ℚ) : PointData ℚ :=
  ⟨(round6 p.position.1, round6 p.position.2.1, round6 p.position.2.2),
   (round6 p.normal.1, round6 p.normal.2.1, round6 p.normal.2.2)⟩

/-- Length preservation of the offset computation: a successful result
has one 3-vector per input point. -/
theorem offset_points_ok_length (pts : List (PointData ℝ)) (d : ℝ)
    (res : List (ℝ × ℝ × ℝ)) (h : offset_points pts d = .ok res) :
    res.length = pts.length := by
  induction pts generalizing res with
  | nil =>
      simp only [offset_points] at h
      cases h
      rfl
  | cons p rest ih =>
      simp only [offset_points] at h
      by_cases hm : Real.sqrt (p.normal.1 ^ 2 + p.normal.2.1 ^ 2 + p.normal.2.2 ^ 2) = 0
      · rw [if_pos hm] at h
        cases h
      · rw [if_neg hm] at h
        cases hrec : offset_points rest d with
        | error e => rw [hrec] at h; cases h
        | ok tail =>
            rw [hrec] at h
            cases h
            simp [ih tail hrec]

/-- Claim C1: for every point sequence in which every point's normal
has nonzero magnitude, and every offset scalar `d`, `offset_points`
returns one 3-vector per input point, in input order, where the i-th
result is `position_i + (normal_i / |normal_i|) * d` component-wise,
with `|normal_i| = sqrt (nx² + ny² + nz²)`. -/
theorem C1_offset_points_formula (pts : List (PointData ℝ)) (d : ℝ)
    (h : ∀ p ∈ pts,
      Real.sqrt (p.normal.1 ^ 2 + p.normal.2.1 ^ 2 + p.normal.2.2 ^ 2) ≠ 0) :
    offset_points pts d = .ok (pts.map fun p =>
      (p.position.1 + p.normal.1 /
          Real.sqrt (p.normal.1 ^ 2 + p.normal.2.1 ^ 2 + p.normal.2.2 ^ 2) * d,
       p.position.2.1 + p.normal.2.1 /
          Real.sqrt (p.normal.1 ^ 2 + p.normal.2.1 ^ 2 + p.normal.2.2 ^ 2) * d,
       p.position.2.2 + p.normal.2.2 /
          Real.sqrt (p.normal.1 ^ 2 + p.normal.2.1 ^ 2 + p.normal.2.2 ^ 2) * d)) := by
  induction pts with
  | nil => rfl
  | cons p rest ih =>
      have hp := h p (List.mem_cons_self p rest)
      have hrest := fun q hq => h q (List.mem_cons_of_mem p hq)
      simp only [offset_points, List.map_cons]
      rw [if_neg hp, ih hrest]

/-- Witness for C1: a one-point sequence with normal `(0, 0, 2)` and
offset `5`, moved to `z = 5` because the normal is normalised first. -/
theorem C1_offset_points_formula_witness :
    offset_points [⟨(0, 0, 0), (0, 0, 2)⟩] 5 = .ok [(0, 0, 5)] := by
  have h := C1_offset_points_formula [⟨(0, 0, 0), (0, 0, 2)⟩] 5 (by
    intro p hp
    simp only [List.mem_singleton] at hp
    subst hp
    simp only
    norm_num)
  rw [h]
  simp only [List.map_cons, List.map_nil]
  norm_num
  rw [show Real.sqrt 4 = 2 by
    rw [show (4 : ℝ) = 2 ^ 2 by norm_num, Real.sqrt_sq (by norm_num)]]
  norm_num

/-- Claim C2: `offset_points` fails with the zero-normal
`CADParseError` if and only if some point's normal has magnitude
exactly `0` (so, by the square-root formula, exactly when the normal
is the zero vector), regardless of that point's position; and that
error is the only failure mode, so any failure aborts the whole
operation with it and no partial result is returned. -/
theorem C2_offset_points_zero_normal (pts : List (PointData ℝ)) (d : ℝ) :
    (offset_points pts d = .error (.cadParse "Normal vector cannot be zero.") ↔
      ∃ p ∈ pts,
        Real.sqrt (p.normal.1 ^ 2 + p.normal.2.1 ^ 2 + p.normal.2.2 ^ 2) = 0) ∧
    (∀ e, offset_points pts d = .error e →
      e = .cadParse "Normal vector cannot be zero.") := by
  induction pts with
  | nil =>
      constructor
      · constructor
        · intro h; cases h
        · rintro ⟨p, hp, -⟩; cases hp
      · intro e he; cases he
  | cons p rest ih =>
      simp only [offset_points]
      by_cases hm : Real.sqrt (p.normal.1 ^ 2 + p.normal.2.1 ^ 2 + p.normal.2.2 ^ 2) = 0
      · rw [if_pos hm]
        constructor
        · constructor
          · intro _; exact ⟨p, List.mem_cons_self p rest, hm⟩
          · intro _; rfl
        · intro e he
          cases he
          rfl
      · rw [if_neg hm]
        cases hrec : offset_points rest d with
        | error e =>
            have he := ih.2 e hrec
            subst he
            constructor
            · constructor
              · intro _
                obtain ⟨q, hq, hqm⟩ := ih.1.mp hrec
                exact ⟨q, List.mem_cons_of_mem p hq, hqm⟩
              · intro _; rfl
            · intro e2 he2
              cases he2
              rfl
        | ok tail =>
            constructor
            · constructor
              · intro h; cases h
              · rintro ⟨q, hq, hqm⟩
                rcases List.mem_cons.mp hq with rfl | hq2
                · exact absurd hqm hm
                · exact absurd hrec (by
                    intro hco
                    have := (ih.1.mpr ⟨q, hq2, hqm⟩)
                    rw [hco] at this
                    cases this)
            · intro e he; cases he

/-- Witness for C2: a point whose normal is the zero vector makes the
computation fail with the zero-normal error whatever its position. -/
theorem C2_offset_points_zero_normal_witness :
    offset_points [⟨(5, 6, 7), (0, 0, 0)⟩] 3 =
      .error (.cadParse "Normal vector cannot be zero.") :=
  (C2_offset_points_zero_normal [⟨(5, 6, 7), (0, 0, 0)⟩] 3).1.mpr
    ⟨⟨(5, 6, 7), (0, 0, 0)⟩, List.mem_singleton.mpr rfl, by
      simp only
      norm_num⟩

/-- Claim C9: with all normals of nonzero magnitude, offsetting by `0`
returns exactly the input positions. -/
theorem C9_offset_points_zero_offset (pts : List (PointData ℝ))
    (h : ∀ p ∈ pts,
      Real.sqrt (p.normal.1 ^ 2 + p.normal.2.1 ^ 2 + p.normal.2.2 ^ 2) ≠ 0) :
    offset_points pts 0 = .ok (pts.map (·.position)) := by
  rw [C1_offset_points_formula pts 0 h]
  simp

/-- Witness for C9: a two-point sequence is returned unchanged under a
zero offset. -/
theorem C9_offset_points_zero_offset_witness :
    offset_points [⟨(1, 2, 3), (0, 0, 1)⟩, ⟨(4, 5, 6), (0, 1, 0)⟩] 0 =
      .ok [(1, 2, 3), (4, 5, 6)] := by
  have h := C9_offset_points_zero_offset
    [⟨(1, 2, 3), (0, 0, 1)⟩, ⟨(4, 5, 6), (0, 1, 0)⟩] (by
      intro p hp
      rcases List.mem_cons.mp hp with rfl | hp2
      · simp only; norm_num
      · rcases List.mem_cons.mp hp2 with rfl | hp3
        · simp only; norm_num
        · cases hp3)
  rw [h]
  rfl

/-- The binary record loop unrolled into a closed form: record `i` is
read at byte offset `off + 50 * i`. -/
theorem stlBinaryRecords_closed (data : List Nat) (t : Nat) :
    ∀ off, stlBinaryRecords data off t = (List.range t).flatMap fun i =>
      let base := off + 50 * i
      let nrm := f32TripleAt data base
      [⟨f32TripleAt data (base + 12), nrm⟩,
       ⟨f32TripleAt data (base + 24), nrm⟩,
       ⟨f32TripleAt data (base + 36), nrm⟩] := by
  induction t with
  | zero => intro off; rfl
  | succ t ih =>
      intro off
      rw [List.range_succ_eq_map]
      simp only [stlBinaryRecords, List.flatMap_cons, ih (off + 50),
        List.flatMap_map]
      simp only [Nat.mul_zero, Nat.add_zero, List.cons_append, List.nil_append,
        List.singleton_append]
      congr 1
      congr 1
      congr 1
      apply List.flatMap_congr
      intro i _
      have : off + 50 + 50 * i = off + 50 * (i + 1) := by ring
      rw [this]

/-- Claim C6: the binary STL decoder fails with the too-small error
when the buffer is shorter than 84 bytes; otherwise, with `T` the
little-endian uint32 at bytes 80..84, it fails with the truncation
error when the buffer is shorter than `84 + 50 * T` bytes, fails with
the empty-mesh error when `T = 0`, and otherwise succeeds with exactly
three points per 50-byte record in record order — the record at byte
`84 + 50 * i` contributing its 3-float32 normal, shared by all three
points, and three positions read as consecutive 12-byte float32
triples at offsets 12, 24 and 36 into the record, the trailing two
attribute bytes being skipped. -/
theorem C6_load_stl_points_binary_layout (data : List Nat) :
    (data.length < 84 →
      load_stl_points_binary data =
        .error (.cadParse "Binary STL file is too small to contain any geometry.")) ∧
    (84 ≤ data.length → data.length < 84 + 50 * le32 data 80 →
      load_stl_points_binary data =
        .error (.cadParse "Binary STL file is truncated and cannot be parsed.")) ∧
    (84 ≤ data.length → 84 + 50 * le32 data 80 ≤ data.length → le32 data 80 = 0 →
      load_stl_points_binary data =
        .error (.cadParse "Binary STL file contained no vertices.")) ∧
    (84 ≤ data.length → 84 + 50 * le32 data 80 ≤ data.length → 0 < le32 data 80 →
      load_stl_points_binary data =
        .ok ((List.range (le32 data 80)).flatMap fun i =>
          let base := 84 + 50 * i
          let nrm := f32TripleAt data base
          [⟨f32TripleAt data (base + 12), nrm⟩,
           ⟨f32TripleAt data (base + 24), nrm⟩,
           ⟨f32TripleAt data (base + 36), nrm⟩])) := by
  refine ⟨fun hsmall => ?_, fun hbig htrunc => ?_, fun hbig hfit hzero => ?_,
    fun hbig hfit hpos => ?_⟩
  · rw [load_stl_points_binary, if_pos hsmall]
  · rw [load_stl_points_binary, if_neg (by omega)]
    rw [if_pos (by omega)]
  · rw [load_stl_points_binary, if_neg (by omega), if_neg (by omega)]
    rw [if_pos]
    rw [hzero]
    rfl
  · rw [load_stl_points_binary, if_neg (by omega), if_neg (by omega)]
    obtain ⟨t, ht⟩ : ∃ t, le32 data 80 = t + 1 := ⟨le32 data 80 - 1, by omega⟩
    rw [ht]
    rw [if_neg (by simp [stlBinaryRecords])]
    rw [stlBinaryRecords_closed]

/-- The all-zero float32 pattern denotes zero. -/
theorem decodeF32_zero : decodeF32 0 = 0 := by
  rw [decodeF32]
  norm_num

/-- The float32 pattern `0x3F800000` denotes one. -/
theorem decodeF32_one : decodeF32 1065353216 = 1 := by
  rw [decodeF32]
  norm_num

set_option maxRecDepth 8192 in
/-- Witness for C6: the concrete one-triangle buffer decodes to three
points sharing the normal `(0, 0, 1)`. -/
theorem C6_load_stl_points_binary_layout_witness :
    load_stl_points_binary binStlExample =
      .ok [⟨(0, 0, 0), (0, 0, 1)⟩, ⟨(1, 0, 0), (0, 0, 1)⟩, ⟨(0, 1, 0), (0, 0, 1)⟩] := by
  have h := (C6_load_stl_points_binary_layout binStlExample).2.2.2
    (by decide) (by decide) (by decide)
  rw [h, show le32 binStlExample 80 = 1 from by decide]
  simp only [show List.range 1 = [0] from by decide,
    List.flatMap_cons, List.flatMap_nil, List.append_nil,
    f32TripleAt, f32At,
    show le32 binStlExample (84 + 50 * 0) = 0 from by decide,
    show le32 binStlExample (84 + 50 * 0 + 4) = 0 from by decide,
    show le32 binStlExample (84 + 50 * 0 + 8) = 1065353216 from by decide,
    show le32 binStlExample (84 + 50 * 0 + 12) = 0 from by decide,
    show le32 binStlExample (84 + 50 * 0 + 12 + 4) = 0 from by decide,
    show le32 binStlExample (84 + 50 * 0 + 12 + 8) = 0 from by decide,
    show le32 binStlExample (84 + 50 * 0 + 24) = 1065353216 from by decide,
    show le32 binStlExample (84 + 50 * 0 + 24 + 4) = 0 from by decide,
    show le32 binStlExample (84 + 50 * 0 + 24 + 8) = 0 from by decide,
    show le32 binStlExample (84 + 50 * 0 + 36) = 0 from by decide,
    show le32 binStlExample (84 + 50 * 0 + 36 + 4) = 1065353216 from by decide,
    show le32 binStlExample (84 + 50 * 0 + 36 + 8) = 0 from by decide,
    decodeF32_zero, decodeF32_one]

/-- Dropping a prefix ignores a kept last element. -/
theorem dropWhile_append_last (p : Char → Bool) (xs : List Char) (a : Char)
    (h : p a = false) :
    List.dropWhile p (xs ++ [a]) = xs.dropWhile p ++ [a] := by
  induction xs with
  | nil => simp [List.dropWhile, h]
  | cons x t ih =>
      by_cases hx : p x
      · simp [List.dropWhile, hx, ih]
      · simp [List.dropWhile, hx]

/-- Stripping a text whose first character is not whitespace keeps
that character in front and only trims the tail. -/
theorem strip_cons_of_not_space (c : Char) (r : Text) (hc : isPySpace c = false) :
    strip (c :: r) = c :: (r.reverse.dropWhile isPySpace).reverse := by
  rw [strip]
  rw [show List.dropWhile isPySpace (c :: r) = c :: r from by simp [List.dropWhile, hc]]
  rw [show (c :: r).reverse = r.reverse ++ [c] from by simp]
  rw [dropWhile_append_last _ _ _ hc]
  simp

/-- Stripping only removes characters. -/
theorem mem_of_mem_strip (c : Char) (s : Text) (h : c ∈ strip s) : c ∈ s := by
  rw [strip] at h
  rw [List.mem_reverse] at h
  have h2 := (List.dropWhile_sublist isPySpace).subset h
  rw [List.mem_reverse] at h2
  exact (List.dropWhile_sublist isPySpace).subset h2

/-- A text free of line boundaries is a single line; `acc` is the
line prefix already consumed, reversed. -/
theorem splitlinesAux_no_break (s : Text) :
    ∀ acc : Text, (∀ c ∈ s, isLineBreak c = false) → (acc = [] → s ≠ []) →
      splitlinesAux s acc = [acc.reverse ++ s] := by
  induction s with
  | nil =>
      intro acc _ hne
      have : acc ≠ [] := fun h => (hne h) rfl
      simp [splitlinesAux, this]
  | cons c t ih =>
      intro acc hnb _
      have hc := hnb c (List.mem_cons_self c t)
      have hcr : c ≠ '\r' := by
        intro h
        rw [h] at hc
        simp [isLineBreak] at hc
      rw [splitlinesAux.eq_3 acc c t (fun t2 h _ => hcr h)]
      rw [if_neg (by simp [hc])]
      rw [ih (c :: acc) (fun x hx => hnb x (List.mem_cons_of_mem c hx)) (by simp)]
      simp

/-- Python `splitlines` of a nonempty text without line boundaries is
the one-element list holding the text itself. -/
theorem splitlines_eq_single (s : Text) (hnb : ∀ c ∈ s, isLineBreak c = false)
    (hne : s ≠ []) : splitlines s = [s] := by
  rw [splitlines, splitlinesAux_no_break s [] hnb (fun _ => hne)]
  simp

/-- The token splitter, started with a partially read token, emits
that token's characters at the head of its first result. -/
theorem splitWsAux_acc_ne_nil (s : Text) :
    ∀ acc : Text, acc ≠ [] →
      ∃ tok rest, splitWsAux s acc = (acc.reverse ++ tok) :: rest := by
  induction s with
  | nil =>
      intro acc hacc
      refine ⟨[], [], ?_⟩
      simp [splitWsAux, hacc]
  | cons c t ih =>
      intro acc hacc
      by_cases hc : isPySpace c
      · refine ⟨[], splitWsAux t [], ?_⟩
        simp [splitWsAux, hc, hacc]
      · obtain ⟨tok, rest, htr⟩ := ih (c :: acc) (by simp)
        refine ⟨c :: tok, rest, ?_⟩
        rw [splitWsAux, if_neg (by simp [hc]), htr]
        simp

/-- Splitting a text that starts with a non-whitespace character gives
a first token that starts with that character. -/
theorem splitWs_cons_head (c : Char) (xs : Text) (hc : isPySpace c = false) :
    ∃ tok rest, splitWs (c :: xs) = (c :: tok) :: rest := by
  rw [splitWs, splitWsAux, if_neg (by simp [hc])]
  obtain ⟨tok, rest, htr⟩ := splitWsAux_acc_ne_nil xs [c] (by simp)
  exact ⟨tok, rest, by rw [htr]; simp⟩

/-- A JSON number cannot start with `#`. -/
theorem parseJNumCore_hash (r : Text) : parseJNumCore ('#' :: r) = none := by
  rw [parseJNumCore]
  simp [isDigitCh]

/-- A signed JSON number cannot start with `#`. -/
theorem parseJNum_hash (r : Text) : parseJNum? ('#' :: r) = none := by
  rw [parseJNum?.eq_2 _ (by intro t h; simp at h)]
  exact parseJNumCore_hash r

/-- A `#` is not JSON whitespace. -/
theorem skipWsJ_hash (r : Text) : skipWsJ ('#' :: r) = '#' :: r := by
  simp [skipWsJ]

/-- No JSON value starts with `#`. -/
theorem parseJVal_hash (fuel : Nat) (r : Text) :
    parseJVal (fuel + 1) ('#' :: r) = none := by
  rw [parseJVal, skipWsJ_hash]
  simp [parseJNum_hash]

/-- A document that starts with `#` is not JSON
(`json.JSONDecodeError`). -/
theorem jsonLoads_hash (r : Text) : jsonLoads ('#' :: r) = none := by
  rw [jsonLoads]
  rw [show ('#' :: r).length + 1 = (r.length + 1) + 1 from by simp]
  rw [parseJVal_hash]

/-- The JSON decoder falls through (reports a syntax error) on a text
that starts with `#`. -/
theorem load_json_points_hash (r : Text) :
    load_json_points ('#' :: r) = .error .jsonDecode := by
  rw [load_json_points, jsonLoads_hash]

/-- The ASCII STL line machine ignores a line that strips to a `#`
comment. -/
theorem loadStlTextLines_comment (line r2 : Text) (n : Nat)
    (h : strip line = '#' :: r2) :
    loadStlTextLines [line] n [] none = .ok [] := by
  rw [loadStlTextLines, h]
  rw [if_neg (by simp)]
  have hc : isPySpace '#' = false := by decide
  obtain ⟨tok, rest, htr⟩ := splitWs_cons_head '#' (r2.map Char.toLower) hc
  rw [show ('#' :: r2).map Char.toLower = '#' :: r2.map Char.toLower from by
    simp [show Char.toLower '#' = '#' from rfl]]
  rw [htr]
  rw [if_neg (by simp), if_neg (by simp), if_neg (by simp)]
  rfl

/-- The delimited-text decoder skips a line that strips to a `#`
comment. -/
theorem loadCsvLines_comment (line r2 : Text) (n : Nat)
    (h : strip line = '#' :: r2) :
    loadCsvLines [line] n [] = .ok [] := by
  rw [loadCsvLines, h]
  rw [if_pos (by simp)]
  rfl

/-- Counterexample to claim C3: a text file consisting only of blank
lines and `#` comment lines parses successfully to the empty point
sequence (the JSON and ASCII-STL decoders fall through, and the
delimited-text decoder skips every line), so the autodetection chain
can return an empty point sequence without reporting any error. -/
theorem C3_counterexample_comment_file_parses_empty :
    parse_cad_points (asciiBytes " \n# comment only\n\n# second comment\n".data) =
      .ok [] := by
  rfl

/-- Claim C3 (amended): `parse_cad_points` does not guarantee a
nonempty result — any UTF-8 buffer whose text is free of line
boundaries and strips to a `#` comment decodes successfully to the
empty point sequence: JSON fails with a syntax error, ASCII STL finds
no vertices, and the delimited-text decoder skips the comment line,
returning no points at all. -/
theorem C3_comment_only_returns_empty (bs : List Nat) (cs r2 : Text)
    (hdec : decodeUtf8? bs = some cs)
    (hstrip : strip cs = '#' :: r2)
    (hnb : ∀ c ∈ cs, isLineBreak c = false) :
    parse_cad_points bs = .ok [] := by
  have hbs : bs ≠ [] := by
    intro h
    subst h
    rw [show decodeUtf8? [] = some [] from rfl] at hdec
    have hcs : cs = [] := by injection hdec with h2; exact h2.symm
    rw [hcs] at hstrip
    cases hstrip
  rw [parse_cad_points, if_neg hbs, hdec]
  simp only
  rw [hstrip]
  rw [if_neg (by simp)]
  rw [load_json_points_hash]
  have hnbs : ∀ c ∈ '#' :: r2, isLineBreak c = false := by
    intro c hc
    rw [← hstrip] at hc
    exact hnb c (mem_of_mem_strip c cs hc)
  have hstrip2 : strip ('#' :: r2) = '#' :: (r2.reverse.dropWhile isPySpace).reverse :=
    strip_cons_of_not_space '#' r2 (by decide)
  have hstl : load_stl_points_text ('#' :: r2) =
      .error (.cadParse "No vertices were found in the provided STL file.") := by
    rw [load_stl_points_text, splitlines_eq_single _ hnbs (by simp)]
    rw [loadStlTextLines_comment _ _ _ hstrip2]
    rfl
  rw [hstl]
  have hcsv : load_csv_points ('#' :: r2) = .ok [] := by
    rw [load_csv_points, splitlines_eq_single _ hnbs (by simp)]
    exact loadCsvLines_comment _ _ _ hstrip2
  rw [hcsv]

/-- Witness for the amended C3: the one-byte buffer `#`. -/
theorem C3_comment_only_returns_empty_witness :
    parse_cad_points [35] = .ok [] :=
  C3_comment_only_returns_empty [35] ['#'] [] rfl (by decide) (by decide)

/-- Counterexample to claim C4: on syntactically valid JSON with a
structurally wrong point (a 2-element `position`), the autodetection
chain reports the JSON structural `CADParseError` itself — it does not
fall through to the ASCII-STL and delimited-text decoders, whose
terminal failure would instead surface as the unsupported-format
message. -/
theorem C4_counterexample_structural_error_is_reported :
    parse_cad_points
        (asciiBytes "\x7b\"points\": [\x7b\"position\": [0, 0], \"normal\": [0, 0, 1]\x7d]\x7d".data) =
      .error (.cadParse "Point at index 0 must include 3D position and normal.") ∧
    (PyError.cadParse "Point at index 0 must include 3D position and normal." ≠
      PyError.cadParse "Unsupported CAD file format. Provide JSON, CSV, or STL data.") := by
  constructor
  · rfl
  · decide

/-- Claim C4 (amended): in the autodetection chain, only a JSON
*syntax* failure falls through to the other decoders; a JSON
*structural* failure (missing key, non-numeric value, wrong arity) is
raised as a `CADParseError` and propagates to the caller unchanged. -/
theorem C4_structural_error_propagates (bs : List Nat) (cs : Text) (msg : String)
    (hdec : decodeUtf8? bs = some cs)
    (hne : strip cs ≠ [])
    (hjson : load_json_points (strip cs) = .error (.cadParse msg)) :
    parse_cad_points bs = .error (.cadParse msg) := by
  have hbs : bs ≠ [] := by
    intro h
    subst h
    rw [show decodeUtf8? [] = some [] from rfl] at hdec
    have hcs : cs = [] := by injection hdec with h2; exact h2.symm
    rw [hcs] at hne
    exact hne rfl
  rw [parse_cad_points, if_neg hbs, hdec]
  simp only
  rw [if_neg hne, hjson]

/-- Witness for the amended C4: a point object with no `"normal"` key
(a `KeyError` inside the conversion loop, re-raised as the
invalid-point `CADParseError`) surfaces unchanged from the chain. -/
theorem C4_structural_error_propagates_witness :
    parse_cad_points (asciiBytes "\x7b\"points\": [\x7b\"position\": [0, 0, 0]\x7d]\x7d".data) =
      .error (.cadParse "Invalid point definition at index 0.") :=
  C4_structural_error_propagates
    (asciiBytes "\x7b\"points\": [\x7b\"position\": [0, 0, 0]\x7d]\x7d".data)
    "\x7b\"points\": [\x7b\"position\": [0, 0, 0]\x7d]\x7d".data
    "Invalid point definition at index 0." rfl (by decide) (by rfl)

/-- Claim C10: some syntactically valid JSON uploads raise exceptions
that are not `CADParseError` — a JSON object without a `"points"` key
raises `KeyError`, and a document whose top-level value is a bare
number raises `TypeError` at the iteration — and these escape both the
autodetection chain's fallback handling and `offset_view`'s error
handling (the view only catches `CADParseError`), leaving the
documented error taxonomy entirely, whatever blob formatter the view
uses. -/
theorem C10_structural_exceptions_escape_taxonomy :
    (∀ fmtR : ℝ → Text,
      offset_view fmtR (some (asciiBytes "\x7b\"nopoints\": 1\x7d".data)) "1".data =
          .error .keyError ∧
      offset_view fmtR (some (asciiBytes "5".data)) "1".data = .error .typeError) ∧
    (∀ msg, PyError.keyError ≠ .cadParse msg) ∧
    (∀ msg, PyError.typeError ≠ .cadParse msg) := by
  refine ⟨fun _ => ⟨rfl, rfl⟩, fun _ h => ?_, fun _ h => ?_⟩ <;> cases h

/-- The digit characters produced by `digitChar` have the expected
code points. -/
theorem digitChar_toNat (d : Nat) (h : d < 10) : (digitChar d).toNat = 48 + d := by
  interval_cases d <;> rfl

/-- A produced digit character satisfies the digit test. -/
theorem isDigitCh_digitChar (d : Nat) (h : d < 10) : isDigitCh (digitChar d) = true := by
  interval_cases d <;> rfl

/-- Parsing a produced digit character recovers its value. -/
theorem digitVal_digitChar (d : Nat) (h : d < 10) : digitVal (digitChar d) = d := by
  interval_cases d <;> rfl

/-- Every character of a digit rendering is a digit. -/
theorem natToCharsRev_digits (fuel : Nat) :
    ∀ n c, c ∈ natToCharsRev fuel n → isDigitCh c = true := by
  induction fuel with
  | zero => intro n c hc; cases hc
  | succ fuel ih =>
      intro n c hc
      rw [natToCharsRev] at hc
      by_cases hn : n = 0
      · rw [if_pos hn] at hc; cases hc
      · rw [if_neg hn] at hc
        rcases List.mem_cons.mp hc with rfl | hc2
        · exact isDigitCh_digitChar _ (Nat.mod_lt _ (by omega))
        · exact ih _ c hc2

/-- Every character of `natToChars` is a digit. -/
theorem natToChars_digits (n : Nat) (c : Char) (h : c ∈ natToChars n) :
    isDigitCh c = true := by
  rw [natToChars] at h
  by_cases hn : n = 0
  · rw [if_pos hn] at h
    rcases List.mem_singleton.mp h with rfl
    decide
  · rw [if_neg hn] at h
    rw [List.mem_reverse] at h
    exact natToCharsRev_digits n n c h

/-- `natToChars` never renders to the empty string. -/
theorem natToChars_ne_nil (n : Nat) : natToChars n ≠ [] := by
  rw [natToChars]
  by_cases hn : n = 0
  · rw [if_pos hn]; simp
  · rw [if_neg hn]
    cases hfuel : n with
    | zero => exact absurd hfuel hn
    | succ m =>
        rw [natToCharsRev]
        rw [if_neg (by omega)]
        simp

/-- Digit renderings are short: below `10 ^ k`, at most `k` digits. -/
theorem natToCharsRev_length_le (fuel : Nat) :
    ∀ n k, n < 10 ^ k → (natToCharsRev fuel n).length ≤ k := by
  induction fuel with
  | zero => intro n k _; simp [natToCharsRev]
  | succ fuel ih =>
      intro n k hk
      rw [natToCharsRev]
      by_cases hn : n = 0
      · rw [if_pos hn]; simp
      · rw [if_neg hn]
        cases k with
        | zero => simp at hk; omega
        | succ k2 =>
            simp only [List.length_cons]
            have : n / 10 < 10 ^ k2 := by
              have h10 : 10 ^ (k2 + 1) = 10 ^ k2 * 10 := by ring
              omega
            have := ih (n / 10) k2 this
            omega

/-- Folding digits after a prefix: the prefix value is scaled by ten
for each appended digit. -/
theorem digitsToNat_foldl (s : List Char) :
    ∀ a : Nat, s.foldl (fun x c => x * 10 + digitVal c) a =
      a * 10 ^ s.length + digitsToNat s := by
  induction s with
  | nil => intro a; simp [digitsToNat]
  | cons c t ih =>
      intro a
      rw [digitsToNat]
      simp only [List.foldl_cons, List.length_cons]
      rw [ih (a * 10 + digitVal c), ih (0 * 10 + digitVal c)]
      ring

/-- Reading back a digit rendering recovers the number. -/
theorem digitsToNat_natToCharsRev (fuel : Nat) :
    ∀ n, n ≤ fuel → digitsToNat ((natToCharsRev fuel n).reverse) = n := by
  induction fuel with
  | zero => intro n hn; interval_cases n; rfl
  | succ fuel ih =>
      intro n hn
      rw [natToCharsRev]
      by_cases hz : n = 0
      · rw [if_pos hz, hz]; rfl
      · rw [if_neg hz]
        simp only [List.reverse_cons]
        rw [digitsToNat, List.foldl_append]
        simp only [List.foldl_cons, List.foldl_nil]
        have hrec : n / 10 ≤ fuel := by omega
        have h1 : ((natToCharsRev fuel (n / 10)).reverse).foldl
            (fun x c => x * 10 + digitVal c) 0 = n / 10 := by
          have := ih (n / 10) hrec
          rw [digitsToNat] at this
          exact this
        rw [h1, digitVal_digitChar _ (Nat.mod_lt _ (by omega))]
        omega

/-- Reading back `natToChars` recovers the number. -/
theorem digitsToNat_natToChars (n : Nat) : digitsToNat (natToChars n) = n := by
  rw [natToChars]
  by_cases hz : n = 0
  · rw [if_pos hz, hz]; rfl
  · rw [if_neg hz]
    exact digitsToNat_natToCharsRev n n le_rfl

/-- Leading zeros do not change the numeric value of a digit string. -/
theorem digitsToNat_padZeros6 (s : List Char) :
    digitsToNat (padZeros6 s) = digitsToNat s := by
  rw [padZeros6, digitsToNat, List.foldl_append]
  have : ∀ k a, (List.replicate k '0').foldl (fun x c => x * 10 + digitVal c) a = a * 10 ^ k := by
    intro k
    induction k with
    | zero => intro a; simp
    | succ k2 ih =>
        intro a
        simp only [List.replicate_succ, List.foldl_cons]
        rw [ih]
        have : digitVal '0' = 0 := by decide
        rw [this]
        ring
  rw [this]
  simp [digitsToNat]

/-- `padZeros6` only prepends zero digits. -/
theorem padZeros6_digits (s : List Char) (hs : ∀ c ∈ s, isDigitCh c = true) :
    ∀ c ∈ padZeros6 s, isDigitCh c = true := by
  intro c hc
  rw [padZeros6] at hc
  rcases List.mem_append.mp hc with h | h
  · rcases List.eq_of_mem_replicate h with rfl
    decide
  · exact hs c h

/-- `padZeros6` pads a short digit string to exactly six digits. -/
theorem padZeros6_length (s : List Char) (h : s.length ≤ 6) :
    (padZeros6 s).length = 6 := by
  rw [padZeros6]
  simp
  omega

/-- Numeric characters are not Python whitespace. -/
theorem isNumChar_not_space (c : Char) (h : isNumChar c) : isPySpace c = false := by
  rcases h with h | rfl | rfl
  · rw [isDigitCh] at h
    simp only [Bool.and_eq_true, decide_eq_true_eq] at h
    rw [isPySpace]
    simp only [Bool.or_eq_false_iff, Bool.and_eq_false_iff]
    norm_num
    omega
  · decide
  · decide

/-- Numeric characters are not line boundaries. -/
theorem isNumChar_not_break (c : Char) (h : isNumChar c) : isLineBreak c = false := by
  rcases h with h | rfl | rfl
  · rw [isDigitCh] at h
    simp only [Bool.and_eq_true, decide_eq_true_eq] at h
    rw [isLineBreak]
    simp only [Bool.or_eq_false_iff]
    norm_num
    omega
  · decide
  · decide

/-- Lower-casing leaves numeric characters unchanged. -/
theorem toLower_numChar (c : Char) (h : isNumChar c) : Char.toLower c = c := by
  have hlt : c.toNat < 65 := by
    rcases h with h | rfl | rfl
    · rw [isDigitCh] at h
      simp only [Bool.and_eq_true, decide_eq_true_eq] at h
      omega
    · decide
    · decide
  rw [Char.toLower]
  rw [if_neg (by omega)]

/-- Every character of a 6-decimal rendering is numeric. -/
theorem formatFloat6_chars (q : ℚ) (c : Char) (h : c ∈ formatFloat6 q) :
    isNumChar c := by
  rw [formatFloat6] at h
  rcases List.mem_append.mp h with h1 | h1
  · rcases List.mem_append.mp h1 with h2 | h2
    · by_cases hq : q < 0
      · rw [if_pos hq] at h2
        rcases List.mem_singleton.mp h2 with rfl
        right; left; rfl
      · rw [if_neg hq] at h2
        cases h2
    · left
      exact natToChars_digits _ c h2
  · rcases List.mem_cons.mp h1 with rfl | h2
    · right; right; rfl
    · left
      exact padZeros6_digits _ (fun x hx => natToChars_digits _ x hx) c h2

/-- A 6-decimal rendering is never empty. -/
theorem formatFloat6_ne_nil (q : ℚ) : formatFloat6 q ≠ [] := by
  rw [formatFloat6]
  by_cases hq : q < 0
  · rw [if_pos hq]; simp
  · rw [if_neg hq]
    simp only [List.nil_append]
    intro hcon
    exact natToChars_ne_nil _ (by
      have := congrArg (List.take ((natToChars ((roundHalfEven (q * 1000000)).natAbs / 1000000)).length)) hcon
      rw [List.take_left] at this
      simpa using this)

/-- The rounding always lands on the floor or its successor. -/
theorem roundHalfEven_cases (x : ℚ) :
    roundHalfEven x = ⌊x⌋ ∨ roundHalfEven x = ⌊x⌋ + 1 := by
  rw [roundHalfEven]
  split
  · left; rfl
  · split
    · right; rfl
    · split
      · left; rfl
      · right; rfl

/-- Rounding an integer is the identity. -/
theorem roundHalfEven_intCast (n : ℤ) : roundHalfEven (n : ℚ) = n := by
  rw [roundHalfEven]
  rw [Int.floor_intCast]
  rw [if_pos (by norm_num)]

/-- Rounding a nonnegative value is nonnegative, a nonpositive value
nonpositive. -/
theorem roundHalfEven_sign (x : ℚ) :
    (0 ≤ x → 0 ≤ roundHalfEven x) ∧ (x < 0 → roundHalfEven x ≤ 0) := by
  constructor
  · intro hx
    have h0 : (0 : ℤ) ≤ ⌊x⌋ := Int.floor_nonneg.mpr hx
    rcases roundHalfEven_cases x with h | h <;> omega
  · intro hx
    have h0 : ⌊x⌋ ≤ -1 := by
      have : ⌊x⌋ < 0 := Int.floor_lt.mpr (by norm_num [hx])
      omega
    rcases roundHalfEven_cases x with h | h <;> omega

/-- Dropping while a failing predicate holds is the identity. -/
theorem dropWhile_eq_self_of_not (p : Char → Bool) (s : Text)
    (h : ∀ c ∈ s, p c = false) : s.dropWhile p = s := by
  cases s with
  | nil => rfl
  | cons c t =>
      rw [List.dropWhile_cons, if_neg (by rw [h c (List.mem_cons_self c t)]; simp)]

/-- Stripping a text with no whitespace at all is the identity. -/
theorem strip_eq_self (s : Text) (h : ∀ c ∈ s, isPySpace c = false) :
    strip s = s := by
  rw [strip]
  rw [dropWhile_eq_self_of_not _ _ h]
  rw [dropWhile_eq_self_of_not _ _ (fun c hc => h c (List.mem_reverse.mp hc))]
  simp

/-- `takeWhile` over a satisfied prefix followed by a failing
character. -/
theorem takeWhile_prefix_append (p : Char → Bool) (A : Text) (x : Char) (B : Text)
    (hA : ∀ c ∈ A, p c = true) (hx : p x = false) :
    (A ++ x :: B).takeWhile p = A ∧ (A ++ x :: B).dropWhile p = x :: B := by
  induction A with
  | nil =>
      constructor
      · rw [List.nil_append, List.takeWhile_cons, if_neg (by rw [hx]; simp)]
      · rw [List.nil_append, List.dropWhile_cons, if_neg (by rw [hx]; simp)]
  | cons a t ih =>
      have ha := hA a (List.mem_cons_self a t)
      have iht := ih (fun c hc => hA c (List.mem_cons_of_mem a hc))
      constructor
      · rw [List.cons_append, List.takeWhile_cons, if_pos (by rw [ha])]
        rw [iht.1]
      · rw [List.cons_append, List.dropWhile_cons, if_pos (by rw [ha])]
        exact iht.2

/-- `takeWhile` of an entirely satisfied list. -/
theorem takeWhile_eq_self_of_all (p : Char → Bool) (s : Text)
    (h : ∀ c ∈ s, p c = true) :
    s.takeWhile p = s ∧ s.dropWhile p = [] := by
  induction s with
  | nil => exact ⟨rfl, rfl⟩
  | cons c t ih =>
      have hc := h c (List.mem_cons_self c t)
      have iht := ih fun x hx => h x (List.mem_cons_of_mem c hx)
      constructor
      · rw [List.takeWhile_cons, if_pos (by rw [hc]), iht.1]
      · rw [List.dropWhile_cons, if_pos (by rw [hc])]
        exact iht.2

/-- Digit renderings of values below one million have at most six
characters. -/
theorem natToChars_length_le6 (F : Nat) (hF : F < 1000000) :
    (natToChars F).length ≤ 6 := by
  rw [natToChars]
  by_cases hz : F = 0
  · rw [if_pos hz]; simp
  · rw [if_neg hz]
    rw [List.length_reverse]
    exact natToCharsRev_length_le F F 6 (by norm_num; omega)

/-- Parsing the unsigned body `⟨digits of I⟩.⟨six digits of F⟩` of a
formatted number yields `I + F / 10⁶`. -/
theorem parseUnsignedFloat_body (I F : Nat) (hF : F < 1000000) :
    parseUnsignedFloat (natToChars I ++ '.' :: padZeros6 (natToChars F)) =
      some ((I : ℚ) + (F : ℚ) / 1000000) := by
  have hdig : ∀ c ∈ natToChars I, isDigitCh c = true := fun c hc => natToChars_digits I c hc
  have hdot : isDigitCh '.' = false := by decide
  have htw := takeWhile_prefix_append isDigitCh (natToChars I) '.'
    (padZeros6 (natToChars F)) hdig hdot
  rw [parseUnsignedFloat]
  rw [htw.1, htw.2]
  simp only
  have hpad : ∀ c ∈ padZeros6 (natToChars F), isDigitCh c = true :=
    padZeros6_digits _ (fun c hc => natToChars_digits F c hc)
  have htw2 := takeWhile_eq_self_of_all isDigitCh (padZeros6 (natToChars F)) hpad
  rw [htw2.1, htw2.2]
  rw [if_neg (by
    intro hcon
    exact natToChars_ne_nil I hcon.1)]
  rw [show parseExpPart [] = some 0 from rfl]
  rw [Option.map_some']
  rw [digitsToNat_natToChars, digitsToNat_padZeros6, digitsToNat_natToChars]
  rw [padZeros6_length _ (natToChars_length_le6 F hF)]
  rw [qpow10]
  norm_num

/-- Recombining the integral and fractional digit groups of a scaled
value. -/
theorem natDivMod_recombine (N : ℕ) :
    ((N / 1000000 : ℕ) : ℚ) + ((N % 1000000 : ℕ) : ℚ) / 1000000 = (N : ℚ) / 1000000 := by
  rw [eq_div_iff (by norm_num : (1000000 : ℚ) ≠ 0)]
  ring_nf
  have h : N / 1000000 * 1000000 + N % 1000000 = N := by omega
  exact_mod_cast h

/-- Parsing back a 6-decimal rendering recovers the value rounded to
six decimal places: formatting is lossy exactly up to `round6`. -/
theorem parseFloat_formatFloat6 (q : ℚ) :
    parseFloat? (formatFloat6 q) = some (round6 q) := by
  have hnum : ∀ c ∈ formatFloat6 q, isPySpace c = false :=
    fun c hc => isNumChar_not_space c (formatFloat6_chars q c hc)
  have hstrip : strip (formatFloat6 q) = formatFloat6 q := strip_eq_self _ hnum
  have hF : (roundHalfEven (q * 1000000)).natAbs % 1000000 < 1000000 :=
    Nat.mod_lt _ (by norm_num)
  have hbody := parseUnsignedFloat_body ((roundHalfEven (q * 1000000)).natAbs / 1000000)
    ((roundHalfEven (q * 1000000)).natAbs % 1000000) hF
  rw [natDivMod_recombine] at hbody
  rw [parseFloat?, hstrip, round6]
  by_cases hq : q < 0
  · have hfmt : formatFloat6 q = '-' ::
        (natToChars ((roundHalfEven (q * 1000000)).natAbs / 1000000) ++
          '.' :: padZeros6 (natToChars ((roundHalfEven (q * 1000000)).natAbs % 1000000))) := by
      rw [formatFloat6, if_pos hq]
      rfl
    rw [hfmt]
    simp only
    rw [hbody]
    have hn : roundHalfEven (q * 1000000) ≤ 0 :=
      (roundHalfEven_sign _).2 (mul_neg_of_neg_of_pos hq (by norm_num))
    have habs : (((roundHalfEven (q * 1000000)).natAbs : ℕ) : ℚ) =
        -((roundHalfEven (q * 1000000) : ℤ) : ℚ) := by
      rw [Int.cast_natAbs, abs_of_nonpos hn, Int.cast_neg]
    rw [Option.map_some', habs]
    congr 1
    ring
  · have hfmt : formatFloat6 q =
        natToChars ((roundHalfEven (q * 1000000)).natAbs / 1000000) ++
          '.' :: padZeros6 (natToChars ((roundHalfEven (q * 1000000)).natAbs % 1000000)) := by
      rw [formatFloat6, if_neg hq]
      rfl
    obtain ⟨d, rest, hI⟩ : ∃ d rest,
        natToChars ((roundHalfEven (q * 1000000)).natAbs / 1000000) = d :: rest := by
      cases hx : natToChars ((roundHalfEven (q * 1000000)).natAbs / 1000000) with
      | nil => exact absurd hx (natToChars_ne_nil _)
      | cons d rest => exact ⟨d, rest, rfl⟩
    have hd : isDigitCh d = true :=
      natToChars_digits _ d (by rw [hI]; exact List.mem_cons_self d rest)
    rw [hfmt, hI]
    simp only [List.cons_append]
    split
    · rename_i t ht
      exfalso
      have : d = '+' := by injection ht
      subst this
      simp [isDigitCh] at hd
    · rename_i t ht
      exfalso
      have : d = '-' := by injection ht
      subst this
      simp [isDigitCh] at hd
    · rename_i t ht1 ht2
      rw [show d :: (rest ++ '.' :: padZeros6 (natToChars
            ((roundHalfEven (q * 1000000)).natAbs % 1000000))) =
          natToChars ((roundHalfEven (q * 1000000)).natAbs / 1000000) ++
            '.' :: padZeros6 (natToChars ((roundHalfEven (q * 1000000)).natAbs % 1000000))
          from by rw [hI]; rfl]
      rw [hbody]
      have hn : 0 ≤ roundHalfEven (q * 1000000) :=
        (roundHalfEven_sign _).1 (mul_nonneg (not_lt.mp hq) (by norm_num))
      have habs : (((roundHalfEven (q * 1000000)).natAbs : ℕ) : ℚ) =
        ((roundHalfEven (q * 1000000) : ℤ) : ℚ) := by
        rw [Int.cast_natAbs]
        rw [abs_of_nonneg (by exact_mod_cast hn)]
      rw [habs]

/-- Shifting a facet block three entries into both lists. -/
theorem facetBlock_shift3 {α : Type} (fmt : α → Text) (a b c : PointData α)
    (pts : List (PointData α)) (x y z : α × α × α) (vps : List (α × α × α)) (n : Nat) :
    facetBlock fmt (a :: b :: c :: pts) (x :: y :: z :: vps) (n + 3) =
      facetBlock fmt pts vps n := by
  simp only [facetBlock]
  rw [show n + 3 = n + 1 + 1 + 1 from by omega]
  simp only [List.drop_succ_cons]

/-- The index-stepping facet loop, unrolled over consecutive triples:
with a point count divisible by three and matching position count, the
loop emits exactly one facet block per triple. -/
theorem facetLinesFrom_eq_triples {α : Type} (fmt : α → Text) :
    ∀ (pts : List (PointData α)) (vps : List (α × α × α)),
      pts.length % 3 = 0 → vps.length = pts.length →
      facetLinesFrom fmt pts vps = (triples pts vps).flatMap (facetText fmt)
  | [], vps, _, hlen => by
      have hv : vps = [] := List.eq_nil_of_length_eq_zero (by simpa using hlen)
      subst hv
      simp [facetLinesFrom, triples]
  | [_], _, h3, _ => by simp at h3
  | [_, _], _, h3, _ => by simp at h3
  | _ :: _ :: _ :: _, [], _, hlen => by simp at hlen
  | _ :: _ :: _ :: _, [_], _, hlen => by simp at hlen
  | _ :: _ :: _ :: _, [_, _], _, hlen => by simp at hlen
  | p1 :: p2 :: p3 :: pr, v1 :: v2 :: v3 :: vr, h3, hlen => by
      have h3' : pr.length % 3 = 0 := by
        simp only [List.length_cons] at h3
        omega
      have hlen' : vr.length = pr.length := by
        simp only [List.length_cons] at hlen
        omega
      have ihcall := facetLinesFrom_eq_triples fmt pr vr h3' hlen'
      rw [show triples (p1 :: p2 :: p3 :: pr) (v1 :: v2 :: v3 :: vr) =
        (p1, [v1, v2, v3]) :: triples pr vr from rfl]
      rw [List.flatMap_cons]
      rw [facetLinesFrom]
      rw [show ((p1 :: p2 :: p3 :: pr).length + 2) / 3 = pr.length / 3 + 1 from by
        simp only [List.length_cons]
        omega]
      have hblock0 : facetBlock fmt (p1 :: p2 :: p3 :: pr) (v1 :: v2 :: v3 :: vr) (3 * 0) =
          facetText fmt (p1, [v1, v2, v3]) := by
        simp [facetBlock, facetText, fmtTriple]
      have hrest : ((List.range (pr.length / 3)).flatMap fun k =>
          facetBlock fmt (p1 :: p2 :: p3 :: pr) (v1 :: v2 :: v3 :: vr) (3 * (k + 1))) =
          facetLinesFrom fmt pr vr := by
        rw [facetLinesFrom]
        rw [show (pr.length + 2) / 3 = pr.length / 3 from by omega]
        apply List.flatMap_congr
        intro k _
        rw [show 3 * (k + 1) = 3 * k + 3 from by ring]
        exact facetBlock_shift3 fmt p1 p2 p3 pr v1 v2 v3 vr (3 * k)
      rw [List.range_succ_eq_map, List.flatMap_cons, List.flatMap_map]
      rw [hblock0, hrest, ihcall]

/-- Zero renders as `0.000000`. -/
theorem formatFloat6_zero : formatFloat6 0 = "0.000000".data := by
  rw [formatFloat6]
  rw [show ((0 : ℚ) * 1000000) = ((0 : ℤ) : ℚ) from by norm_num, roundHalfEven_intCast]
  rw [if_neg (by norm_num)]
  decide

/-- One renders as `1.000000`. -/
theorem formatFloat6_one : formatFloat6 1 = "1.000000".data := by
  rw [formatFloat6]
  rw [show ((1 : ℚ) * 1000000) = ((1000000 : ℤ) : ℚ) from by norm_num, roundHalfEven_intCast]
  rw [if_neg (by norm_num)]
  decide

/-- Claim C7: the ASCII STL emitter (at its 6-decimal fixed-point
formatter) returns `none` exactly when an explicit position list of
the wrong length is given or the point count is not a multiple of
three — no other failure mode — and otherwise returns the
`solid ⟨name⟩ … endsolid ⟨name⟩` block in which every consecutive
triple of points yields one facet whose normal line carries the
triple's first point's normal and whose three vertex lines carry the
triple's positions, every numeric value rendered by `formatFloat6`,
the fixed 6-decimal formatter. -/
theorem C7_generate_ascii_stl_spec (pts : List (PointData ℚ))
    (positions : Option (List (ℚ × ℚ × ℚ))) (name : Text) :
    (generate_ascii_stl formatFloat6 pts positions name = none ↔
      (∃ ps, positions = some ps ∧ ps.length ≠ pts.length) ∨ pts.length % 3 ≠ 0) ∧
    (pts.length % 3 = 0 → positions = none →
      generate_ascii_stl formatFloat6 pts positions name =
        some (joinNl (("solid ".data ++ name) ::
          (triples pts (pts.map (·.position))).flatMap (facetText formatFloat6) ++
          [("endsolid ".data ++ name)]))) ∧
    (∀ ps, pts.length % 3 = 0 → positions = some ps → ps.length = pts.length →
      generate_ascii_stl formatFloat6 pts positions name =
        some (joinNl (("solid ".data ++ name) ::
          (triples pts ps).flatMap (facetText formatFloat6) ++
          [("endsolid ".data ++ name)]))) := by
  refine ⟨?_, ?_, ?_⟩
  · cases positions with
    | none =>
        by_cases h3 : pts.length % 3 = 0 <;> simp [generate_ascii_stl, h3]
    | some ps =>
        by_cases hlen : ps.length = pts.length <;>
          by_cases h3 : pts.length % 3 = 0 <;>
            simp [generate_ascii_stl, hlen, h3]
  · intro h3 hpos
    subst hpos
    rw [generate_ascii_stl]
    simp only
    rw [if_neg (by omega)]
    rw [facetLinesFrom_eq_triples formatFloat6 pts (pts.map (·.position)) h3 (by simp)]
  · intro ps h3 hpos hlen
    subst hpos
    simp only [generate_ascii_stl, hlen, h3]
    norm_num
    rw [facetLinesFrom_eq_triples formatFloat6 pts ps h3 hlen]

set_option maxRecDepth 16384 in
/-- Witness for C7: a unit triangle with normal `(0, 0, 1)` emitted
under the name `source_mesh` produces the expected 6-decimal block. -/
theorem C7_generate_ascii_stl_spec_witness :
    generate_ascii_stl formatFloat6
        [⟨(0, 0, 0), (0, 0, 1)⟩, ⟨(1, 0, 0), (0, 0, 1)⟩, ⟨(0, 1, 0), (0, 0, 1)⟩]
        none "source_mesh".data =
      some ("solid source_mesh\n  facet normal 0.000000 0.000000 1.000000\n    outer loop\n      vertex 0.000000 0.000000 0.000000\n      vertex 1.000000 0.000000 0.000000\n      vertex 0.000000 1.000000 0.000000\n    endloop\n  endfacet\nendsolid source_mesh".data) := by
  have h := (C7_generate_ascii_stl_spec
    [⟨(0, 0, 0), (0, 0, 1)⟩, ⟨(1, 0, 0), (0, 0, 1)⟩, ⟨(0, 1, 0), (0, 0, 1)⟩]
    none "source_mesh".data).2.1 (by decide) rfl
  rw [h]
  simp only [List.map_cons, List.map_nil]
  rw [show triples
      [(⟨(0, 0, 0), (0, 0, 1)⟩ : PointData ℚ), ⟨(1, 0, 0), (0, 0, 1)⟩, ⟨(0, 1, 0), (0, 0, 1)⟩]
      [((0 : ℚ), (0 : ℚ), (0 : ℚ)), (1, 0, 0), (0, 1, 0)] =
    [(⟨(0, 0, 0), (0, 0, 1)⟩, [(0, 0, 0), (1, 0, 0), (0, 1, 0)])] from rfl]
  simp only [List.flatMap_cons, List.flatMap_nil, List.append_nil, facetText, fmtTriple,
    List.map_cons, List.map_nil]
  simp only [formatFloat6_zero, formatFloat6_one]
  decide

/-- Dropping from a list whose head does not satisfy the predicate is
the identity. -/
theorem dropWhile_eq_self_head (p : Char → Bool) (s : Text)
    (h : ∀ c, s.head? = some c → p c = false) : s.dropWhile p = s := by
  cases s with
  | nil => rfl
  | cons c t => rw [List.dropWhile_cons, if_neg (by rw [h c rfl]; simp)]

/-- Mapping a function that fixes every member is the identity. -/
theorem map_eq_self_of_mem (f : Char → Char) (s : Text)
    (h : ∀ c ∈ s, f c = c) : s.map f = s := by
  induction s with
  | nil => rfl
  | cons c t ih =>
      rw [List.map_cons, h c (List.mem_cons_self c t),
        ih fun x hx => h x (List.mem_cons_of_mem c hx)]

/-- Intercalation of a separator over at least two parts. -/
theorem intercalate_cons_of_ne_nil (sep a : Text) (l : List Text) (h : l ≠ []) :
    List.intercalate sep (a :: l) = a ++ sep ++ List.intercalate sep l := by
  cases l with
  | nil => exact absurd rfl h
  | cons b t => simp [List.intercalate, List.intersperse]

/-- Splitting a single whitespace-free token. -/
theorem splitWsAux_single (t : Text) :
    ∀ acc, (∀ c ∈ t, isPySpace c = false) → (acc = [] → t ≠ []) →
      splitWsAux t acc = [acc.reverse ++ t] := by
  induction t with
  | nil =>
      intro acc _ hne
      have : acc ≠ [] := fun h => hne h rfl
      simp [splitWsAux, this]
  | cons c t2 ih =>
      intro acc hws _
      rw [splitWsAux, if_neg (by rw [hws c (List.mem_cons_self c t2)]; simp)]
      rw [ih (c :: acc) (fun x hx => hws x (List.mem_cons_of_mem c hx)) (by simp)]
      simp

/-- Splitting a whitespace-free token followed by a space: the token
is emitted and splitting continues after the space. -/
theorem splitWsAux_token_sep (rest : Text) (t : Text) :
    ∀ acc, (∀ c ∈ t, isPySpace c = false) → (acc = [] → t ≠ []) →
      splitWsAux (t ++ ' ' :: rest) acc = (acc.reverse ++ t) :: splitWsAux rest [] := by
  induction t with
  | nil =>
      intro acc _ hne
      have hacc : acc ≠ [] := fun h => hne h rfl
      simp [splitWsAux, hacc, show isPySpace ' ' = true from rfl]
  | cons c t2 ih =>
      intro acc hws _
      rw [List.cons_append, splitWsAux,
        if_neg (by rw [hws c (List.mem_cons_self c t2)]; simp)]
      rw [ih (c :: acc) (fun x hx => hws x (List.mem_cons_of_mem c hx)) (by simp)]
      simp

/-- Python `str.split()` of space-intercalated nonempty
whitespace-free tokens recovers exactly those tokens. -/
theorem splitWs_tokens : ∀ ts : List Text,
    (∀ t ∈ ts, t ≠ [] ∧ ∀ c ∈ t, isPySpace c = false) →
    splitWs (List.intercalate [' '] ts) = ts := by
  intro ts
  induction ts with
  | nil => intro _; rfl
  | cons t ts2 ih =>
      intro h
      have ht := h t (List.mem_cons_self t ts2)
      cases hts2 : ts2 with
      | nil =>
          rw [show List.intercalate [' '] [t] = t from by simp [List.intercalate]]
          rw [splitWs, splitWsAux_single t [] ht.2 (fun _ => ht.1)]
          simp
      | cons u us =>
          rw [← hts2]
          rw [intercalate_cons_of_ne_nil [' '] t ts2 (by rw [hts2]; simp)]
          rw [show t ++ [' '] ++ List.intercalate [' '] ts2 =
            t ++ ' ' :: List.intercalate [' '] ts2 from by simp]
          rw [splitWs, splitWsAux_token_sep _ t [] ht.2 (fun _ => ht.1)]
          rw [show splitWsAux (List.intercalate [' '] ts2) [] =
            splitWs (List.intercalate [' '] ts2) from rfl]
          rw [ih fun x hx => h x (List.mem_cons_of_mem t hx)]
          simp

/-- Head of an appended list with a cons left part. -/
theorem head?_append_cons (d : Char) (r B : Text) :
    ((d :: r) ++ B).head? = some d := rfl

/-- A 6-decimal rendering read backwards starts with a digit. -/
theorem formatFloat6_reverse_head (q : ℚ) :
    ∃ d r, (formatFloat6 q).reverse = d :: r ∧ isDigitCh d = true := by
  have hpadne : padZeros6 (natToChars ((roundHalfEven (q * 1000000)).natAbs % 1000000)) ≠ [] := by
    rw [padZeros6]
    intro hcon
    rcases List.append_eq_nil.mp hcon with ⟨-, h2⟩
    exact natToChars_ne_nil _ h2
  rw [formatFloat6]
  rw [List.reverse_append, List.reverse_append, List.reverse_cons]
  cases hrev : (padZeros6
      (natToChars ((roundHalfEven (q * 1000000)).natAbs % 1000000))).reverse with
  | nil =>
      exact absurd (by simpa using congrArg List.reverse hrev) hpadne
  | cons d r =>
      have hd : d ∈ padZeros6 (natToChars ((roundHalfEven (q * 1000000)).natAbs % 1000000)) := by
        rw [← List.mem_reverse, hrev]
        exact List.mem_cons_self d r
      simp only [List.cons_append, List.append_assoc]
      exact ⟨d, _, rfl,
        padZeros6_digits _ (fun c hc => natToChars_digits _ c hc) d hd⟩

/-- Characters of a formatted 3-vector: numeric characters and the
separating spaces. -/
theorem fmtTriple_chars (v : ℚ × ℚ × ℚ) (c : Char)
    (h : c ∈ fmtTriple formatFloat6 v) : isNumChar c ∨ c = ' ' := by
  rw [fmtTriple] at h
  rcases List.mem_append.mp h with h1 | h1
  · rcases List.mem_append.mp h1 with h2 | h2
    · exact Or.inl (formatFloat6_chars _ c h2)
    · rcases List.mem_cons.mp h2 with rfl | h3
      · exact Or.inr rfl
      · exact Or.inl (formatFloat6_chars _ c h3)
  · rcases List.mem_cons.mp h1 with rfl | h2
    · exact Or.inr rfl
    · exact Or.inl (formatFloat6_chars _ c h2)

/-- A formatted 3-vector contains no line boundary. -/
theorem fmtTriple_no_break (v : ℚ × ℚ × ℚ) (c : Char)
    (h : c ∈ fmtTriple formatFloat6 v) : isLineBreak c = false := by
  rcases fmtTriple_chars v c h with h1 | rfl
  · exact isNumChar_not_break c h1
  · decide

/-- Lower-casing fixes a formatted 3-vector. -/
theorem fmtTriple_toLower (v : ℚ × ℚ × ℚ) :
    (fmtTriple formatFloat6 v).map Char.toLower = fmtTriple formatFloat6 v := by
  apply map_eq_self_of_mem
  intro c hc
  rcases fmtTriple_chars v c hc with h1 | rfl
  · exact toLower_numChar c h1
  · rfl

/-- A formatted 3-vector read backwards starts with a digit. -/
theorem fmtTriple_reverse_head (v : ℚ × ℚ × ℚ) :
    ∃ d r, (fmtTriple formatFloat6 v).reverse = d :: r ∧ isDigitCh d = true := by
  obtain ⟨d, r, hdr, hd⟩ := formatFloat6_reverse_head v.2.2
  rw [fmtTriple, List.reverse_append, List.reverse_cons, hdr]
  simp only [List.cons_append, List.append_assoc]
  exact ⟨d, _, rfl, hd⟩

/-- Stripping a generated line: a run of leading spaces before a core
that starts with a non-space and ends (via `fmtTriple`) in a digit. -/
theorem strip_spaces_fmtTriple (prefixChars core : Text) (v : ℚ × ℚ × ℚ)
    (hpre : ∀ c ∈ prefixChars, c = ' ')
    (hcore : ∀ c, (core ++ fmtTriple formatFloat6 v).head? = some c → isPySpace c = false) :
    strip (prefixChars ++ (core ++ fmtTriple formatFloat6 v)) =
      core ++ fmtTriple formatFloat6 v := by
  rw [strip]
  have h1 : (prefixChars ++ (core ++ fmtTriple formatFloat6 v)).dropWhile isPySpace =
      (core ++ fmtTriple formatFloat6 v).dropWhile isPySpace := by
    induction prefixChars with
    | nil => rfl
    | cons c t ih =>
        rcases hpre c (List.mem_cons_self c t) with rfl
        rw [List.cons_append, List.dropWhile_cons, if_pos (by decide)]
        exact ih fun x hx => hpre x (List.mem_cons_of_mem _ hx)
  rw [h1, dropWhile_eq_self_head _ _ hcore]
  obtain ⟨d, r, hdr, hd⟩ := fmtTriple_reverse_head v
  rw [List.reverse_append, hdr, List.cons_append, List.dropWhile_cons,
    if_neg (by rw [isNumChar_not_space d (Or.inl hd)]; simp)]
  rw [← List.cons_append, ← hdr, ← List.reverse_append, List.reverse_reverse]

/-- Processing the `solid` header line: ignored, the machine moves on. -/
theorem stlStep_solid (rest : List Text) (n : Nat) (pts : List (PointData ℚ))
    (cur : Option (ℚ × ℚ × ℚ)) :
    loadStlTextLines ("solid source_mesh".data :: rest) n pts cur =
      loadStlTextLines rest (n + 1) pts cur := rfl

/-- Processing an `outer loop` line: ignored. -/
theorem stlStep_outer (rest : List Text) (n : Nat) (pts : List (PointData ℚ))
    (cur : Option (ℚ × ℚ × ℚ)) :
    loadStlTextLines ("    outer loop".data :: rest) n pts cur =
      loadStlTextLines rest (n + 1) pts cur := rfl

/-- Processing an `endloop` line: ignored. -/
theorem stlStep_endloop (rest : List Text) (n : Nat) (pts : List (PointData ℚ))
    (cur : Option (ℚ × ℚ × ℚ)) :
    loadStlTextLines ("    endloop".data :: rest) n pts cur =
      loadStlTextLines rest (n + 1) pts cur := rfl

/-- Processing an `endfacet` line: the pending normal is cleared. -/
theorem stlStep_endfacet (rest : List Text) (n : Nat) (pts : List (PointData ℚ))
    (cur : Option (ℚ × ℚ × ℚ)) :
    loadStlTextLines ("  endfacet".data :: rest) n pts cur =
      loadStlTextLines rest (n + 1) pts none := rfl

/-- Processing the `endsolid` trailer line: ignored. -/
theorem stlStep_endsolid (rest : List Text) (n : Nat) (pts : List (PointData ℚ))
    (cur : Option (ℚ × ℚ × ℚ)) :
    loadStlTextLines ("endsolid source_mesh".data :: rest) n pts cur =
      loadStlTextLines rest (n + 1) pts cur := rfl

/-- Formatted components are nonempty whitespace-free tokens. -/
theorem fmtTriple_token_facts (q : ℚ) :
    formatFloat6 q ≠ [] ∧ ∀ c ∈ formatFloat6 q, isPySpace c = false :=
  ⟨formatFloat6_ne_nil q,
   fun c hc => isNumChar_not_space c (formatFloat6_chars q c hc)⟩

/-- A stripped facet line is the space-intercalation of its five tokens. -/
theorem facet_line_repr (nrm : ℚ × ℚ × ℚ) :
    "facet normal ".data ++ fmtTriple formatFloat6 nrm =
      List.intercalate [' '] ["facet".data, "normal".data,
        formatFloat6 nrm.1, formatFloat6 nrm.2.1, formatFloat6 nrm.2.2] := by
  simp [List.intercalate, List.intersperse, fmtTriple]

/-- Processing a generated facet-normal line: the machine records the normal, rounded to six decimals by the parse of its rendering. -/
theorem stlStep_facet (nrm : ℚ × ℚ × ℚ) (rest : List Text) (n : Nat)
    (pts : List (PointData ℚ)) (cur : Option (ℚ × ℚ × ℚ)) :
    loadStlTextLines (("  facet normal ".data ++ fmtTriple formatFloat6 nrm) :: rest) n pts cur =
      loadStlTextLines rest (n + 1) pts (some (round6Triple nrm)) := by
  have hstrip : strip ("  facet normal ".data ++ fmtTriple formatFloat6 nrm) =
      "facet normal ".data ++ fmtTriple formatFloat6 nrm := by
    have := strip_spaces_fmtTriple "  ".data "facet normal ".data nrm
      (by decide) (fun c hc => by cases hc; decide)
    simpa using this
  have htok : splitWs ("facet normal ".data ++ fmtTriple formatFloat6 nrm) =
      ["facet".data, "normal".data,
        formatFloat6 nrm.1, formatFloat6 nrm.2.1, formatFloat6 nrm.2.2] := by
    rw [facet_line_repr]
    apply splitWs_tokens
    intro t ht
    rcases List.mem_cons.mp ht with rfl | ht2
    · exact ⟨by simp, by decide⟩
    rcases List.mem_cons.mp ht2 with rfl | ht3
    · exact ⟨by simp, by decide⟩
    rcases List.mem_cons.mp ht3 with rfl | ht4
    · exact fmtTriple_token_facts _
    rcases List.mem_cons.mp ht4 with rfl | ht5
    · exact fmtTriple_token_facts _
    rcases List.mem_cons.mp ht5 with rfl | ht6
    · exact fmtTriple_token_facts _
    cases ht6
  have hlow : ("facet normal ".data ++ fmtTriple formatFloat6 nrm).map Char.toLower =
      "facet normal ".data ++ fmtTriple formatFloat6 nrm := by
    rw [List.map_append, fmtTriple_toLower,
      show ("facet normal ".data.map Char.toLower) = "facet normal ".data from by decide]
  rw [loadStlTextLines.eq_def]
  simp only
  rw [hstrip]
  rw [if_neg (by simp)]
  rw [hlow, htok]
  rw [if_pos (by rfl)]
  rw [if_neg (by simp)]
  simp only [List.drop_succ_cons, List.drop_zero]
  rw [show List.mapM parseFloat? [formatFloat6 nrm.1, formatFloat6 nrm.2.1, formatFloat6 nrm.2.2] =
    some [round6 nrm.1, round6 nrm.2.1, round6 nrm.2.2] from by
      simp [List.mapM.loop, parseFloat_formatFloat6]]
  rfl
/-- A stripped vertex line is the space-intercalation of its four tokens. -/
theorem vertex_line_repr (v : ℚ × ℚ × ℚ) :
    "vertex ".data ++ fmtTriple formatFloat6 v =
      List.intercalate [' '] ["vertex".data,
        formatFloat6 v.1, formatFloat6 v.2.1, formatFloat6 v.2.2] := by
  simp [List.intercalate, List.intersperse, fmtTriple]

/-- Processing a generated vertex line: the machine emits one point whose position is the rendered position rounded to six decimals and whose normal is the pending one. -/
theorem stlStep_vertex (v nrm : ℚ × ℚ × ℚ) (rest : List Text) (n : Nat)
    (pts : List (PointData ℚ)) :
    loadStlTextLines (("      vertex ".data ++ fmtTriple formatFloat6 v) :: rest) n pts
        (some nrm) =
      loadStlTextLines rest (n + 1) (pts ++ [⟨round6Triple v, nrm⟩]) (some nrm) := by
  have hstrip : strip ("      vertex ".data ++ fmtTriple formatFloat6 v) =
      "vertex ".data ++ fmtTriple formatFloat6 v := by
    have := strip_spaces_fmtTriple "      ".data "vertex ".data v
      (by decide) (fun c hc => by cases hc; decide)
    simpa using this
  have htok : splitWs ("vertex ".data ++ fmtTriple formatFloat6 v) =
      ["vertex".data, formatFloat6 v.1, formatFloat6 v.2.1, formatFloat6 v.2.2] := by
    rw [vertex_line_repr]
    apply splitWs_tokens
    intro t ht
    rcases List.mem_cons.mp ht with rfl | ht2
    · exact ⟨by simp, by decide⟩
    rcases List.mem_cons.mp ht2 with rfl | ht3
    · exact fmtTriple_token_facts _
    rcases List.mem_cons.mp ht3 with rfl | ht4
    · exact fmtTriple_token_facts _
    rcases List.mem_cons.mp ht4 with rfl | ht5
    · exact fmtTriple_token_facts _
    cases ht5
  have hlow : ("vertex ".data ++ fmtTriple formatFloat6 v).map Char.toLower =
      "vertex ".data ++ fmtTriple formatFloat6 v := by
    rw [List.map_append, fmtTriple_toLower,
      show ("vertex ".data.map Char.toLower) = "vertex ".data from by decide]
  rw [loadStlTextLines.eq_def]
  simp only
  rw [hstrip]
  rw [if_neg (by simp)]
  rw [hlow, htok]
  rw [if_neg (by simp)]
  rw [if_pos (by rfl)]
  rw [if_neg (by simp)]
  simp only [List.drop_succ_cons, List.drop_zero]
  rw [show List.mapM parseFloat? [formatFloat6 v.1, formatFloat6 v.2.1, formatFloat6 v.2.2] =
    some [round6 v.1, round6 v.2.1, round6 v.2.2] from by
      simp [List.mapM.loop, parseFloat_formatFloat6]]
  rfl
/-- Processing one whole emitted facet block: three points are appended, each carrying the rounded positions and the rounded facet normal, and the pending normal is cleared again. -/
theorem stlBlock_run (p : PointData ℚ) (v1 v2 v3 : ℚ × ℚ × ℚ) (rest : List Text)
    (n : Nat) (pts : List (PointData ℚ)) :
    loadStlTextLines (facetText formatFloat6 (p, [v1, v2, v3]) ++ rest) n pts none =
      loadStlTextLines rest (n + 7)
        (pts ++ [⟨round6Triple v1, round6Triple p.normal⟩,
                 ⟨round6Triple v2, round6Triple p.normal⟩,
                 ⟨round6Triple v3, round6Triple p.normal⟩]) none := by
  rw [show facetText formatFloat6 (p, [v1, v2, v3]) ++ rest =
    (("  facet normal ".data ++ fmtTriple formatFloat6 p.normal)
      :: "    outer loop".data
      :: ("      vertex ".data ++ fmtTriple formatFloat6 v1)
      :: ("      vertex ".data ++ fmtTriple formatFloat6 v2)
      :: ("      vertex ".data ++ fmtTriple formatFloat6 v3)
      :: "    endloop".data :: "  endfacet".data :: rest) from rfl]
  rw [stlStep_facet, stlStep_outer, stlStep_vertex, stlStep_vertex, stlStep_vertex,
    stlStep_endloop, stlStep_endfacet]
  rw [show n + 1 + 1 + 1 + 1 + 1 + 1 + 1 = n + 7 from by omega]
  simp only [List.append_assoc, List.singleton_append]
  rfl

/-- Splitting at an explicit newline after a boundary-free line. -/
theorem splitlinesAux_line_sep (l : Text) :
    ∀ (acc rest : Text), (∀ c ∈ l, isLineBreak c = false) →
      splitlinesAux (l ++ '\n' :: rest) acc =
        (acc.reverse ++ l) :: splitlinesAux rest [] := by
  induction l with
  | nil =>
      intro acc rest _
      rw [List.nil_append,
        splitlinesAux.eq_3 acc '\n' rest (fun t1 hc _ => by cases hc)]
      rw [if_pos (by decide)]
      simp
  | cons c l2 ih =>
      intro acc rest h
      have hc := h c (List.mem_cons_self c l2)
      have hcr : c ≠ '\r' := by
        intro hcon
        rw [hcon] at hc
        simp [isLineBreak] at hc
      rw [List.cons_append,
        splitlinesAux.eq_3 acc c (l2 ++ '\n' :: rest) (fun t1 hcon _ => hcr hcon)]
      rw [if_neg (by simp [hc])]
      rw [ih (c :: acc) rest (fun x hx => h x (List.mem_cons_of_mem c hx))]
      simp

/-- Joining with newlines, one line at a time. -/
theorem joinNl_cons (a : Text) (ls : List Text) (h : ls ≠ []) :
    joinNl (a :: ls) = a ++ '\n' :: joinNl ls := by
  rw [joinNl, joinNl, intercalate_cons_of_ne_nil _ _ _ h]
  simp

/-- Splitting a newline-join of nonempty boundary-free lines recovers exactly those lines. -/
theorem splitlines_joinNl : ∀ ls : List Text,
    (∀ l ∈ ls, l ≠ [] ∧ ∀ c ∈ l, isLineBreak c = false) → ls ≠ [] →
    splitlines (joinNl ls) = ls := by
  intro ls
  induction ls with
  | nil => intro _ h; exact absurd rfl h
  | cons a ls2 ih =>
      intro h _
      have ha := h a (List.mem_cons_self a ls2)
      cases hls2 : ls2 with
      | nil =>
          rw [show joinNl [a] = a from by simp [joinNl, List.intercalate]]
          exact splitlines_eq_single a ha.2 ha.1
      | cons b t =>
          rw [← hls2]
          rw [joinNl_cons a ls2 (by rw [hls2]; simp)]
          rw [splitlines, splitlinesAux_line_sep a [] (joinNl ls2) ha.2]
          rw [show splitlinesAux (joinNl ls2) [] = splitlines (joinNl ls2) from rfl]
          rw [ih (fun x hx => h x (List.mem_cons_of_mem a hx)) (by rw [hls2]; simp)]
          simp
/-- Every entry of `triples` carries exactly three positions. -/
theorem triples_shape {α : Type} :
    ∀ (pts : List (PointData α)) (vps : List (α × α × α)) pr,
      pr ∈ triples pts vps → ∃ v1 v2 v3, pr.2 = [v1, v2, v3]
  | p1 :: _ :: _ :: pr2, v1 :: v2 :: v3 :: vr, pr, h => by
      rw [show triples (p1 :: _ :: _ :: pr2) (v1 :: v2 :: v3 :: vr) =
        (p1, [v1, v2, v3]) :: triples pr2 vr from rfl] at h
      rcases List.mem_cons.mp h with rfl | h2
      · exact ⟨v1, v2, v3, rfl⟩
      · exact triples_shape pr2 vr pr h2
  | [], _, pr, h => by cases h
  | [_], _, pr, h => by cases h
  | [_, _], _, pr, h => by cases h
  | _ :: _ :: _ :: _, [], pr, h => by cases h
  | _ :: _ :: _ :: _, [_], pr, h => by cases h
  | _ :: _ :: _ :: _, [_, _], pr, h => by cases h

/-- Processing all emitted facet blocks: seven lines per block, three rounded points per block, in block order. -/
theorem stlBlocks_run (trs : List (PointData ℚ × List (ℚ × ℚ × ℚ))) :
    ∀ (rest : List Text) (n : Nat) (pts : List (PointData ℚ)),
      (∀ pr ∈ trs, ∃ v1 v2 v3, pr.2 = [v1, v2, v3]) →
      loadStlTextLines (trs.flatMap (facetText formatFloat6) ++ rest) n pts none =
        loadStlTextLines rest (n + 7 * trs.length)
          (pts ++ trs.flatMap fun pr => pr.2.map fun v =>
            (⟨round6Triple v, round6Triple pr.1.normal⟩ : PointData ℚ)) none := by
  induction trs with
  | nil => intro rest n pts _; simp
  | cons pr trs2 ih =>
      intro rest n pts h
      obtain ⟨v1, v2, v3, hv⟩ := h pr (List.mem_cons_self pr trs2)
      have hpr : pr = (pr.1, [v1, v2, v3]) := by
        rw [← hv]
      rw [List.flatMap_cons, List.flatMap_cons]
      rw [List.append_assoc]
      rw [show facetText formatFloat6 pr = facetText formatFloat6 (pr.1, [v1, v2, v3]) from by
        rw [← hpr]]
      rw [stlBlock_run]
      rw [ih rest (n + 7) _ (fun x hx => h x (List.mem_cons_of_mem pr hx))]
      rw [show n + 7 + 7 * trs2.length = n + 7 * (pr :: trs2).length from by
        simp only [List.length_cons]; ring]
      rw [hv]
      simp [List.append_assoc]
/-- Every line of an emitted facet block is nonempty and free of line boundaries. -/
theorem facetText_line_facts (pr : PointData ℚ × List (ℚ × ℚ × ℚ)) :
    ∀ l ∈ facetText formatFloat6 pr, l ≠ [] ∧ ∀ c ∈ l, isLineBreak c = false := by
  intro l hl
  rw [facetText] at hl
  rcases List.mem_cons.mp hl with rfl | hl2
  · refine ⟨by simp, ?_⟩
    intro c hc
    rcases List.mem_append.mp hc with h1 | h1
    · have hconc : ∀ x ∈ "  facet normal ".data, isLineBreak x = false := by decide
      exact hconc c h1
    · exact fmtTriple_no_break _ c h1
  rcases List.mem_cons.mp hl2 with rfl | hl3
  · exact ⟨by decide, by decide⟩
  rcases List.mem_append.mp hl3 with hl4 | hl4
  · obtain ⟨v, _, rfl⟩ := List.mem_map.mp hl4
    refine ⟨by simp, ?_⟩
    intro c hc
    rcases List.mem_append.mp hc with h1 | h1
    · have hconc : ∀ x ∈ "      vertex ".data, isLineBreak x = false := by decide
      exact hconc c h1
    · exact fmtTriple_no_break _ c h1
  rcases List.mem_cons.mp hl4 with rfl | hl5
  · exact ⟨by decide, by decide⟩
  rcases List.mem_cons.mp hl5 with rfl | hl6
  · exact ⟨by decide, by decide⟩
  cases hl6

/-- Decoding the emitted ASCII STL text of a nonempty triple-aligned point sequence succeeds and returns, per triple, the three positions rounded to six decimals paired with the triple head normal rounded to six decimals. -/
theorem stl_roundtrip_core (pts : List (PointData ℚ)) (hne : pts ≠ [])
    (h3 : pts.length % 3 = 0) :
    load_stl_points_text (joinNl (("solid ".data ++ "source_mesh".data) ::
        (triples pts (pts.map (·.position))).flatMap (facetText formatFloat6) ++
        [("endsolid ".data ++ "source_mesh".data)])) =
      .ok ((triples pts (pts.map (·.position))).flatMap fun pr =>
        pr.2.map fun v => (⟨round6Triple v, round6Triple pr.1.normal⟩ : PointData ℚ)) := by
  obtain ⟨p1, p2, p3, pr, hpts⟩ : ∃ p1 p2 p3 pr, pts = p1 :: p2 :: p3 :: pr := by
    cases pts with
    | nil => exact absurd rfl hne
    | cons a t1 =>
        cases t1 with
        | nil => simp at h3
        | cons b t2 =>
            cases t2 with
            | nil => simp at h3
            | cons c t3 => exact ⟨a, b, c, t3, rfl⟩
  have hlines : ∀ l ∈ ("solid ".data ++ "source_mesh".data) ::
      (triples pts (pts.map (·.position))).flatMap (facetText formatFloat6) ++
      [("endsolid ".data ++ "source_mesh".data)],
      l ≠ [] ∧ ∀ c ∈ l, isLineBreak c = false := by
    intro l hl
    rcases List.mem_cons.mp hl with rfl | hl2
    · exact ⟨by decide, by decide⟩
    rcases List.mem_append.mp hl2 with hl3 | hl3
    · obtain ⟨pr2, _, hpr2⟩ := List.mem_flatMap.mp hl3
      exact facetText_line_facts pr2 l hpr2
    · rcases List.mem_singleton.mp hl3 with rfl
      exact ⟨by decide, by decide⟩
  rw [load_stl_points_text]
  rw [splitlines_joinNl _ hlines (by simp)]
  rw [List.cons_append]
  rw [show ("solid ".data ++ "source_mesh".data : Text) = "solid source_mesh".data from rfl]
  rw [stlStep_solid]
  rw [show ((triples pts (pts.map (·.position))).flatMap (facetText formatFloat6) ++
      [("endsolid ".data ++ "source_mesh".data)] : List Text) =
    (triples pts (pts.map (·.position))).flatMap (facetText formatFloat6) ++
      ["endsolid source_mesh".data] from rfl]
  rw [stlBlocks_run _ _ _ _ (fun pr2 hpr2 => triples_shape _ _ pr2 hpr2)]
  rw [stlStep_endsolid]
  rw [show ∀ m rpts, loadStlTextLines ([] : List Text) m rpts none = .ok rpts from
    fun m rpts => rfl]
  have hne2 : ([] ++ (triples pts (pts.map (·.position))).flatMap fun pr =>
      pr.2.map fun v => (⟨round6Triple v, round6Triple pr.1.normal⟩ : PointData ℚ)) ≠ [] := by
    rw [hpts]
    rw [show triples (p1 :: p2 :: p3 :: pr) ((p1 :: p2 :: p3 :: pr).map (·.position)) =
      (p1, [p1.position, p2.position, p3.position]) ::
        triples pr (pr.map (·.position)) from rfl]
    simp
  simp only []
  rw [if_neg (by simpa using hne2)]
  simp

/-- The emitted block of a triple-aligned point sequence, in its
triple-unrolled form. -/
theorem generate_source_mesh_eq (pts : List (PointData ℚ)) (h3 : pts.length % 3 = 0) :
    generate_ascii_stl formatFloat6 pts none "source_mesh".data =
      some (joinNl (("solid ".data ++ "source_mesh".data) ::
        (triples pts (pts.map (·.position))).flatMap (facetText formatFloat6) ++
        [("endsolid ".data ++ "source_mesh".data)])) := by
  rw [generate_ascii_stl]
  simp only
  rw [if_neg (by omega)]
  rw [facetLinesFrom_eq_triples formatFloat6 pts (pts.map (·.position)) h3 (by simp)]

/-- Counterexample to claim C8: the round trip is not the identity.
For the triangle whose first coordinate is `10⁻⁷`, the emitted
`source_stl` blob decodes successfully but to a different point
sequence — 6-decimal formatting flushed the coordinate to zero. -/
theorem C8_counterexample_roundtrip_loses_precision :
    ∃ s pts2,
      generate_ascii_stl formatFloat6 roundTripCounterexample none "source_mesh".data =
        some s ∧
      load_stl_points_text s = .ok pts2 ∧ pts2 ≠ roundTripCounterexample := by
  have hload := stl_roundtrip_core roundTripCounterexample
    (by simp [roundTripCounterexample]) (by decide)
  refine ⟨_, _, generate_source_mesh_eq roundTripCounterexample (by decide), hload, ?_⟩
  have hr : round6 (1 / 10000000 : ℚ) = 0 := by
    rw [round6, roundHalfEven]
    rw [show (1 / 10000000 : ℚ) * 1000000 = 1 / 10 from by norm_num]
    rw [show ⌊(1 / 10 : ℚ)⌋ = 0 from by norm_num]
    norm_num
  rw [show triples roundTripCounterexample (roundTripCounterexample.map (·.position)) =
    [(⟨(1 / 10000000, 0, 0), (0, 0, 1)⟩,
      [(1 / 10000000, 0, 0), (1, 0, 0), (0, 1, 0)])] from rfl]
  simp only [List.flatMap_cons, List.flatMap_nil, List.map_cons, List.map_nil,
    List.append_nil, roundTripCounterexample]
  intro hcon
  have hfirst := congrArg (fun l => List.head? l) hcon
  simp only [List.head?_cons, Option.some.injEq] at hfirst
  have hpos := congrArg (fun p => p.position.1) hfirst
  simp only [round6Triple] at hpos
  rw [hr] at hpos
  norm_num at hpos

/-- Claim C8 (amended): feeding the emitted `source_stl` blob of a
nonempty triple-aligned point sequence back through the ASCII STL
decoder succeeds, and yields, for every consecutive triple, three
points in order whose positions are the original positions rounded to
six decimal places and whose common normal is the triple's *first*
point's normal rounded to six decimal places; the original sequence is
reproduced only up to that rounding and per-triple normal sharing. -/
theorem C8_stl_roundtrip_rounded (pts : List (PointData ℚ)) (hne : pts ≠ [])
    (h3 : pts.length % 3 = 0) :
    ∃ s, generate_ascii_stl formatFloat6 pts none "source_mesh".data = some s ∧
      load_stl_points_text s =
        .ok ((triples pts (pts.map (·.position))).flatMap fun pr =>
          pr.2.map fun v => (⟨round6Triple v, round6Triple pr.1.normal⟩ : PointData ℚ)) :=
  ⟨_, generate_source_mesh_eq pts h3, stl_roundtrip_core pts hne h3⟩

/-- Witness for the amended C8: the unit triangle round-trips to its
own rounding. -/
theorem C8_stl_roundtrip_rounded_witness :
    ∃ s, generate_ascii_stl formatFloat6
        [⟨(0, 0, 0), (0, 0, 1)⟩, ⟨(1, 0, 0), (0, 0, 1)⟩, ⟨(0, 1, 0), (0, 0, 1)⟩]
        none "source_mesh".data = some s ∧
      load_stl_points_text s =
        .ok ((triples
            [(⟨(0, 0, 0), (0, 0, 1)⟩ : PointData ℚ), ⟨(1, 0, 0), (0, 0, 1)⟩,
              ⟨(0, 1, 0), (0, 0, 1)⟩]
            ([(⟨(0, 0, 0), (0, 0, 1)⟩ : PointData ℚ), ⟨(1, 0, 0), (0, 0, 1)⟩,
              ⟨(0, 1, 0), (0, 0, 1)⟩].map (·.position))).flatMap fun pr =>
          pr.2.map fun v => (⟨round6Triple v, round6Triple pr.1.normal⟩ : PointData ℚ)) :=
  C8_stl_roundtrip_rounded
    [⟨(0, 0, 0), (0, 0, 1)⟩, ⟨(1, 0, 0), (0, 0, 1)⟩, ⟨(0, 1, 0), (0, 0, 1)⟩]
    (by simp) (by decide)

/-- Emission from the points' own positions fails exactly off the
triple alignment. -/
theorem gen_none_iff {α : Type} (fmt : α → Text) (pts : List (PointData α)) (name : Text) :
    generate_ascii_stl fmt pts none name = none ↔ pts.length % 3 ≠ 0 := by
  by_cases h3 : pts.length % 3 = 0 <;> simp [generate_ascii_stl, h3]

/-- Emission from an explicit position list of the right length fails
exactly off the triple alignment. -/
theorem gen_some_none_iff {α : Type} (fmt : α → Text) (pts : List (PointData α))
    (ps : List (α × α × α)) (name : Text) (hlen : ps.length = pts.length) :
    generate_ascii_stl fmt pts (some ps) name = none ↔ pts.length % 3 ≠ 0 := by
  by_cases h3 : pts.length % 3 = 0 <;> simp [generate_ascii_stl, hlen, h3]

/-- Claim C5 (amended): every success response carries the ordered
offset points *and*, unconditionally, the original point positions;
the `source_stl` and `offset_stl` blobs are present exactly when the
decoded point count is a multiple of three — both present when it is,
both absent when it is not. -/
theorem C5_offset_view_success_shape (fmtR : ℝ → Text) (raw : List Nat)
    (offRaw : Text) (payload : OffsetPayload)
    (h : offset_view fmtR (some raw) offRaw = .ok (.success payload)) :
    ∃ pts offVal offPos,
      parseFloat? offRaw = some offVal ∧
      parse_cad_points raw = .ok pts ∧
      offset_points (pts.map pointToReal) (offVal : ℝ) = .ok offPos ∧
      payload.offsetPointsOut = offPos ∧
      payload.sourcePointsOut = pts.map (·.position) ∧
      (pts.length % 3 = 0 → payload.sourceStl.isSome ∧ payload.offsetStl.isSome) ∧
      (pts.length % 3 ≠ 0 → payload.sourceStl = none ∧ payload.offsetStl = none) := by
  rw [offset_view] at h
  cases hpf : parseFloat? offRaw with
  | none => rw [hpf] at h; simp at h
  | some offVal =>
      rw [hpf] at h
      dsimp only at h
      cases hparse : parse_cad_points raw with
      | error e =>
          rw [hparse] at h
          rcases e <;> simp at h
      | ok pts =>
          rw [hparse] at h
          dsimp only at h
          cases hoff : offset_points (pts.map pointToReal) (offVal : ℝ) with
          | error e =>
              rw [hoff] at h
              rcases e <;> simp at h
          | ok offPos =>
              rw [hoff] at h
              dsimp only at h
              have hlen : offPos.length = pts.length := by
                have := offset_points_ok_length (pts.map pointToReal) (offVal : ℝ) offPos hoff
                simpa using this
              refine ⟨pts, offVal, offPos, rfl, rfl, hoff, ?_⟩
              cases hg1 : generate_ascii_stl formatFloat6 pts none "source_mesh".data with
              | none =>
                  rw [hg1] at h
                  dsimp only at h
                  simp only [Except.ok.injEq, ViewResult.success.injEq] at h
                  have h3 : pts.length % 3 ≠ 0 := (gen_none_iff _ _ _).mp hg1
                  subst h
                  exact ⟨rfl, rfl, fun hc => absurd hc h3, fun _ => ⟨rfl, rfl⟩⟩
              | some s1 =>
                  rw [hg1] at h
                  have h3 : pts.length % 3 = 0 := by
                    by_contra h3
                    rw [(gen_none_iff formatFloat6 pts "source_mesh".data).mpr h3] at hg1
                    cases hg1
                  cases hg2 : generate_ascii_stl fmtR (pts.map pointToReal)
                      (some offPos) "offset_mesh".data with
                  | none =>
                      exfalso
                      have := (gen_some_none_iff fmtR (pts.map pointToReal) offPos
                        "offset_mesh".data (by simpa using hlen)).mp hg2
                      simp at this
                      exact this h3
                  | some s2 =>
                      rw [hg2] at h
                      dsimp only at h
                      simp only [Except.ok.injEq, ViewResult.success.injEq] at h
                      subst h
                      exact ⟨rfl, rfl, fun _ => ⟨rfl, rfl⟩, fun hc => absurd h3 hc⟩

set_option maxRecDepth 8192 in
/-- Witness for the amended C5: the comment-only upload decodes to
zero points, a count divisible by three, so the success response
carries both (facet-free) STL blobs next to the empty point lists. -/
theorem C5_offset_view_success_shape_witness :
    ∃ pts offVal offPos,
      parseFloat? "1".data = some offVal ∧
      parse_cad_points [35] = .ok pts ∧
      offset_points (pts.map pointToReal) (offVal : ℝ) = .ok offPos ∧
      (OffsetPayload.mk [] []
          (some "solid source_mesh\nendsolid source_mesh".data)
          (some "solid offset_mesh\nendsolid offset_mesh".data)).offsetPointsOut = offPos ∧
      (OffsetPayload.mk [] []
          (some "solid source_mesh\nendsolid source_mesh".data)
          (some "solid offset_mesh\nendsolid offset_mesh".data)).sourcePointsOut =
        pts.map (·.position) ∧
      (pts.length % 3 = 0 →
        (OffsetPayload.mk [] []
            (some "solid source_mesh\nendsolid source_mesh".data)
            (some "solid offset_mesh\nendsolid offset_mesh".data)).sourceStl.isSome ∧
        (OffsetPayload.mk [] []
            (some "solid source_mesh\nendsolid source_mesh".data)
            (some "solid offset_mesh\nendsolid offset_mesh".data)).offsetStl.isSome) ∧
      (pts.length % 3 ≠ 0 →
        (OffsetPayload.mk [] []
            (some "solid source_mesh\nendsolid source_mesh".data)
            (some "solid offset_mesh\nendsolid offset_mesh".data)).sourceStl = none ∧
        (OffsetPayload.mk [] []
            (some "solid source_mesh\nendsolid source_mesh".data)
            (some "solid offset_mesh\nendsolid offset_mesh".data)).offsetStl = none) :=
  C5_offset_view_success_shape (fun _ => []) [35] "1".data
    (OffsetPayload.mk [] []
      (some "solid source_mesh\nendsolid source_mesh".data)
      (some "solid offset_mesh\nendsolid offset_mesh".data)) (by rfl)

/-- Counterexample to claim C5: a one-point delimited-text upload with
offset `1` succeeds, its response unconditionally carries the original
point positions (`source_points` is always written), yet the decoded
point count `1` is not a multiple of three and both STL blobs are
absent — so the original positions are *not* bundled with the STL
extras as the claim states. -/
theorem C5_counterexample_source_points_always_present :
    offset_view (fun _ => ([] : Text)) (some (asciiBytes "0 0 0 0 0 1".data)) "1".data =
      .ok (.success ⟨[((0 : ℝ), 0, 1)], [((0 : ℚ), 0, 0)], none, none⟩) ∧
    (1 : Nat) % 3 ≠ 0 := by
  constructor
  · have hq0 : ((digitsToNat ['0'] : ℚ) * qpow10 0) = 0 := by
      rw [show digitsToNat ['0'] = 0 from by decide, qpow10]
      norm_num
    have hq1 : ((digitsToNat ['1'] : ℚ) * qpow10 0) = 1 := by
      rw [show digitsToNat ['1'] = 1 from by decide, qpow10]
      norm_num
    have hparse : parse_cad_points (asciiBytes "0 0 0 0 0 1".data) =
        .ok [⟨((0 : ℚ), 0, 0), ((0 : ℚ), 0, 1)⟩] := by
      rw [show parse_cad_points (asciiBytes "0 0 0 0 0 1".data) =
        .ok [⟨(((digitsToNat ['0'] : ℚ) * qpow10 0), ((digitsToNat ['0'] : ℚ) * qpow10 0),
              ((digitsToNat ['0'] : ℚ) * qpow10 0)),
             (((digitsToNat ['0'] : ℚ) * qpow10 0), ((digitsToNat ['0'] : ℚ) * qpow10 0),
              ((digitsToNat ['1'] : ℚ) * qpow10 0))⟩] from rfl]
      rw [hq0, hq1]
    have hpf2 : parseFloat? "1".data = some 1 := by
      rw [show parseFloat? "1".data = some ((digitsToNat ['1'] : ℚ) * qpow10 0) from rfl, hq1]
    rw [offset_view, hpf2]
    dsimp only
    rw [hparse]
    dsimp only
    have hcast : [(⟨((0 : ℚ), 0, 0), ((0 : ℚ), 0, 1)⟩ : PointData ℚ)].map pointToReal =
        [⟨((0 : ℝ), 0, 0), ((0 : ℝ), 0, 1)⟩] := by
      simp [pointToReal]
    rw [hcast]
    have hoff : offset_points [(⟨((0 : ℝ), 0, 0), ((0 : ℝ), 0, 1)⟩ : PointData ℝ)]
        ((1 : ℚ) : ℝ) = .ok [((0 : ℝ), 0, 1)] := by
      simp only [offset_points]
      rw [show Real.sqrt ((0 : ℝ) ^ 2 + (0 : ℝ) ^ 2 + (1 : ℝ) ^ 2) = 1 from by norm_num]
      rw [if_neg one_ne_zero]
      norm_num
    rw [hoff]
    dsimp only
    rw [show generate_ascii_stl formatFloat6
      [(⟨((0 : ℚ), 0, 0), ((0 : ℚ), 0, 1)⟩ : PointData ℚ)] none "source_mesh".data =
      none from rfl]
    rfl
  · decide

end CadOffset
